import Mathlib

/-!
# Verification of the `lab_adadr` distributed-consensus algorithms

Shallow embedding, in Lean 4, of the four per-node protocol state machines of the
repository:

* `Parte1/byzantine.py` — the Oral-Messages Byzantine Generals algorithm
  (namespace `Byz`);
* `Parte2/twopc.py` — classical Two-Phase Commit (namespace `TwoPC`);
* `Parte2/threepc.py` — classical Three-Phase Commit (namespace `ThreePC`);
* `Parte2/threepc_byzantine.py` — signed-message Byzantine-tolerant 3PC
  (namespace `B3PC`).

Modelling conventions, shared by all four embeddings:

* Python dicts holding protocol data are insertion-ordered association lists
  (`upsert` mirrors `d[k] = v`: in-place update of an existing key, append of a
  new one); `alookup` mirrors `d.get(k)`.
* A handler is a pure function from the node's state and the incoming message to
  the new state plus the list of outbound messages (and, where relevant, the list
  of alarms armed).  Code that can raise (`KeyError`, `IndexError`,
  `raise ValueError/Exception`) is embedded in `Except String`.
* The runtime-visible neighbour index (`message.source.id` / `node.id` of the
  simulation framework) is identified with the node's application-level
  `unique_value`; the framework guarantees distinct initial values and the
  algorithms are run on complete topologies, where this identification is a pure
  renaming.
* Alarm ticks (`set_alarm(node, 20, ...)`) are not counted; an armed alarm is an
  event that may fire at any later point, which over-approximates the behaviour
  of the external simulation kernel.
* SHA-256 (imported from Python's external `hashlib`) is a parameter
  `hash : String → String` of the signature primitives; the code under
  verification only composes its output.
-/

namespace Spec2Proof

/-- `upsert l k v` is Python's `l[k] = v` on an insertion-ordered dict
represented as an association list: the first binding of `k` is replaced in
place, a missing key is appended at the end. -/
def upsert {K V : Type} [DecidableEq K] : List (K × V) → K → V → List (K × V)
  | [], k, v => [(k, v)]
  | (k', v') :: t, k, v => if k' = k then (k, v) :: t else (k', v') :: upsert t k v

/-- `alookup l k` is Python's `l.get(k)`. -/
def alookup {K V : Type} [DecidableEq K] : List (K × V) → K → Option V
  | [], _ => none
  | (k', v') :: t, k => if k' = k then some v' else alookup t k

namespace Byz

/-! ## `Parte1/byzantine.py` — Oral-Messages Byzantine Generals

Statuses, message payloads and the per-node handlers, translated from
`ByzantineAlgorithm`.  Decisions travel on the wire as the integers `0`
(RETREAT) and `1` (ATTACK). -/

/-- `ByzantineAlgorithm.Status`. -/
inductive Status where
  | COMMANDER
  | LIEUTIENANT
  | AWAKE
  | RETREAT
  | ATTACK
  | TRAITOR
  | DONE
  deriving DecidableEq, Repr

/-- One value of `saved_decisions`:
`{ 'decisions': {node_id: decision}, 'total': n }`. -/
structure Entry where
  decisions : List (Nat × Nat)
  total : Nat
  deriving DecidableEq, Repr

/-- The payload of a `"Decision"` message:
`{ "id": ..., "decision": ..., "m": ..., "path": [...], "n": ... }`. -/
structure MsgData where
  id : Nat
  decision : Nat
  m : Nat
  path : List Nat
  n : Nat
  deriving DecidableEq, Repr

/-- An inbound message as seen by a handler: header, payload, and the
runtime-stamped source (`message.source.id`). -/
structure InMsg where
  header : String
  data : MsgData
  source : Nat
  deriving DecidableEq, Repr

/-- An outbound message: header, payload and the destination list
(`send_msg(node, Message(header=..., data=..., destination=...))`). -/
structure OutMsg where
  header : String
  data : MsgData
  dests : List Nat
  deriving DecidableEq, Repr

/-- The per-node state: `node.status` plus the `memory` fields used by the
algorithm.  `neighbors` is the `{'source': idx, 'id': learned-or-None}` list;
`decision` is the commander's initial order (`memory['decision']`, only ever
read by the commander's `spontaneously` handler). -/
structure Node where
  status : Status
  uniqueValue : Nat
  m : Nat
  neighbors : List (Nat × Option Nat)
  savedDecisions : List (List Nat × Entry)
  decision : Nat
  deriving DecidableEq, Repr

/-- `majority_decision`: `1 if count(1) > count(0) else 0`. -/
def majority_decision (decisions : List (Nat × Nat)) : Nat :=
  let attack_count := (decisions.map Prod.snd).count 1
  let retreat_count := (decisions.map Prod.snd).count 0
  if attack_count > retreat_count then 1 else 0

/-- `has_all_decisions`: raises `ValueError` when more decisions than `total`
were collected, otherwise reports whether the entry is complete. -/
def has_all_decisions (decisions : List (Nat × Nat)) (total : Nat) :
    Except String Bool :=
  if decisions.length > total then
    .error "Received more decisions than expected."
  else
    .ok (decisions.length == total)

/-- Stable insertion of one binding into a key-sorted association list
(helper for `sortByKey`). -/
def insSorted (p : Nat × Nat) : List (Nat × Nat) → List (Nat × Nat)
  | [] => [p]
  | q :: t => if p.1 ≤ q.1 then p :: q :: t else q :: insSorted p t

/-- `dict(sorted(entry['decisions'].items()))` — re-ordering of an entry's
decisions by key, performed just before the top-level decision. -/
def sortByKey : List (Nat × Nat) → List (Nat × Nat)
  | [] => []
  | p :: t => insSorted p (sortByKey t)

/-- `process_final_decision(self, node, path, decisions)`.  `path[-1]` on an
empty path would raise `IndexError`; the recursive call happens on
`path[:-1]`, which is strictly shorter. -/
def process_final_decision (node : Node) (path : List Nat)
    (decisions : List (Nat × Nat)) : Except String Node :=
  if hp : path = [] then .error "IndexError: path[-1] on empty path"
  else
    let final_decision := majority_decision decisions
    let father := path.getLast hp
    if path.length = 1 then
      if Status.TRAITOR = node.status then
        .ok node
      else
        .ok { node with
              savedDecisions := node.savedDecisions.map
                (fun kv => (kv.1, { kv.2 with decisions := sortByKey kv.2.decisions })),
              status := if final_decision = 1 then Status.ATTACK else Status.RETREAT }
    else
      let parentKey := path.dropLast
      match alookup node.savedDecisions parentKey with
      | none => .error "KeyError: saved_decisions[path]"
      | some entry =>
        let entry' : Entry :=
          { entry with decisions := upsert entry.decisions father final_decision }
        let node' := { node with
                       savedDecisions := upsert node.savedDecisions parentKey entry' }
        match has_all_decisions entry'.decisions entry'.total with
        | .error e => .error e
        | .ok b =>
          if b then process_final_decision node' parentKey entry'.decisions
          else .ok node'
termination_by path.length
decreasing_by
  cases path with
  | nil => exact absurd rfl hp
  | cons a t => simp [List.dropLast]

/-- The common pattern `if self.has_all_decisions(entry['decisions'],
entry['total']): self.process_final_decision(node, path, entry['decisions'])`
that ends each of the three `received_*` handlers. -/
def checkAndFold (node : Node) (path : List Nat) (entry : Entry) :
    Except String Node :=
  match has_all_decisions entry.decisions entry.total with
  | .error e => .error e
  | .ok b =>
    if b then process_final_decision node path entry.decisions else .ok node

/-- The saving step shared by the `received_*` handlers: store `origin ↦ dec`
in the entry keyed by `key`, creating the entry with `total` if absent.
Returns the updated node together with the updated entry (the Python code keeps
a reference to the mutated entry). -/
def storeDecision (node : Node) (key : List Nat) (origin dec total : Nat) :
    Node × Entry :=
  match alookup node.savedDecisions key with
  | none =>
    let entry : Entry := { decisions := [(origin, dec)], total := total }
    ({ node with savedDecisions := upsert node.savedDecisions key entry }, entry)
  | some e =>
    let entry : Entry := { e with decisions := upsert e.decisions origin dec }
    ({ node with savedDecisions := upsert node.savedDecisions key entry }, entry)

/-- `send_recursion_start(self, node, data, send_nodes)`.  `algDecision` is
`self.decision`, the algorithm-level configuration parameter read by the
traitor branch (`lied_decision = 1 if self.decision == 0 else 0`). -/
def send_recursion_start (algDecision : Nat) (node : Node) (data : MsgData)
    (send_nodes : List Nat) : List OutMsg :=
  if Status.TRAITOR = node.status then
    let half := send_nodes.length / 2
    let first_half := send_nodes.take half
    let second_half := send_nodes.drop half
    let lied_decision := if algDecision = 0 then 1 else 0
    let lied_data := { data with decision := lied_decision }
    [ { header := "Decision", data := data, dests := first_half },
      { header := "Decision", data := lied_data, dests := second_half } ]
  else
    [ { header := "Decision", data := data, dests := send_nodes } ]

/-- `send_ids = [n['source'] for n in node.memory['neighbors'] if n['id'] not
in data['path']]` — an unlearned id (`None`) is never `in` an integer list. -/
def sendIds (neighbors : List (Nat × Option Nat)) (path : List Nat) : List Nat :=
  (neighbors.filter (fun p =>
    match p.2 with
    | none => true
    | some i => decide (i ∉ path))).map Prod.fst

/-- `received_more_than_one(self, node, message)`. -/
def received_more_than_one (algDecision : Nat) (node : Node) (msg : InMsg) :
    Except String (Node × List OutMsg) :=
  let data := msg.data
  let (node, entry) := storeDecision node data.path node.uniqueValue data.decision data.n
  let forward_data : MsgData :=
    { id := node.uniqueValue, decision := data.decision, m := data.m - 1,
      path := data.path ++ [node.uniqueValue], n := data.n - 1 }
  let send_nodes := sendIds node.neighbors data.path
  let msgs := send_recursion_start algDecision node forward_data send_nodes
  match checkAndFold node data.path entry with
  | .error e => .error e
  | .ok node => .ok (node, msgs)

/-- `received_one(self, node, message)`: same saving step, but the forwarded
message keeps the same `path`, the same `n`, and `m := m - 1 = 0`. -/
def received_one (algDecision : Nat) (node : Node) (msg : InMsg) :
    Except String (Node × List OutMsg) :=
  let data := msg.data
  let (node, entry) := storeDecision node data.path node.uniqueValue data.decision data.n
  let forward_data : MsgData :=
    { id := node.uniqueValue, decision := data.decision, m := data.m - 1,
      path := data.path, n := data.n }
  let send_nodes := sendIds node.neighbors data.path
  let msgs := send_recursion_start algDecision node forward_data send_nodes
  match checkAndFold node data.path entry with
  | .error e => .error e
  | .ok node => .ok (node, msgs)

/-- `received_zero(self, node, message)`: store the received value keyed by
the sender's claimed id; no forwarding. -/
def received_zero (node : Node) (msg : InMsg) :
    Except String (Node × List OutMsg) :=
  let data := msg.data
  let (node, entry) := storeDecision node data.path data.id data.decision data.n
  match checkAndFold node data.path entry with
  | .error e => .error e
  | .ok node => .ok (node, [])

/-- The neighbour-learning preamble of both `receiving` handlers: record the
sender's claimed id against its runtime slot (first matching slot only). -/
def learnNeighbor : List (Nat × Option Nat) → Nat → Nat → List (Nat × Option Nat)
  | [], _, _ => []
  | (s, i) :: t, src, newId =>
    if s = src then (s, some newId) :: t else (s, i) :: learnNeighbor t src newId

/-- The `receiving` handler shared verbatim by the `TRAITOR` and `LIEUTIENANT`
statuses: learn the sender's id, then dispatch on `message.data['m']`.
(`m` is a natural number here, so the `case _` error branch for negative `m`
is unreachable.)  A non-`"Decision"` header is logged and dropped. -/
def receiving (algDecision : Nat) (node : Node) (msg : InMsg) :
    Except String (Node × List OutMsg) :=
  let node := { node with neighbors := learnNeighbor node.neighbors msg.source msg.data.id }
  if msg.header = "Decision" then
    if msg.data.m > 1 then received_more_than_one algDecision node msg
    else if msg.data.m = 1 then received_one algDecision node msg
    else received_zero node msg
  else
    .ok (node, [])

/-- The commander's `spontaneously` handler: broadcast the initial decision to
every neighbour and terminate.  `algM`/`algN` are the configuration parameters
`self.m` and `self.n`; the neighbour list of a complete topology is every other
node. -/
def spontaneously (algM algN : Nat) (node : Node) (neighborIds : List Nat) :
    Node × List OutMsg :=
  let decision := node.decision
  let data : MsgData :=
    { id := node.uniqueValue, decision := decision, m := node.m,
      path := [node.uniqueValue], n := algN - 1 }
  let data := if algM = 0 then { data with n := 1 } else data
  ({ node with status := Status.DONE },
   [{ header := "Decision", data := data, dests := neighborIds }])

/-- Node-local reachability: the states a single node's memory can be in after
its initialisation and any sequence of successfully handled messages.  This
over-approximates the deliveries any run of the simulation can make. -/
inductive Reach (algDecision : Nat) : Node → Prop where
  | init (status : Status) (uv m dec : Nat) (neighbors : List (Nat × Option Nat)) :
      Reach algDecision
        { status := status, uniqueValue := uv, m := m, neighbors := neighbors,
          savedDecisions := [], decision := dec }
  | step {node node' : Node} {msg : InMsg} {out : List OutMsg} :
      Reach algDecision node →
      receiving algDecision node msg = .ok (node', out) →
      Reach algDecision node'

/-- The bound `|decisions| ≤ total` for every entry of `saved_decisions`. -/
def EntriesOK (node : Node) : Prop :=
  ∀ k e, alookup node.savedDecisions k = some e → e.decisions.length ≤ e.total

/-! Concrete nodes and payloads used by counterexamples and witnesses. -/

def c6TraitorNode : Node :=
  { status := Status.TRAITOR, uniqueValue := 5, m := 2,
    neighbors := [(7, none), (8, none)], savedDecisions := [], decision := 0 }

def c6HonestNode : Node :=
  { status := Status.LIEUTIENANT, uniqueValue := 5, m := 2,
    neighbors := [(7, none), (8, none)], savedDecisions := [], decision := 0 }

def c6Data : MsgData := { id := 5, decision := 1, m := 1, path := [10], n := 3 }

/-- C6 (amended): an honest forwarder sends the received decision unchanged to
all destination nodes; a `TRAITOR` splits the destinations in half, sends the
received decision to the first half, and sends to the second half the flip of
`self.decision`, the algorithm's configured initial-decision parameter (not the
flip of the received decision). -/

def c8Node : Node :=
  { status := Status.LIEUTIENANT, uniqueValue := 5, m := 1,
    neighbors := [(10, none)], savedDecisions := [], decision := 0 }

def c7Node : Node :=
  { status := Status.TRAITOR, uniqueValue := 5, m := 1,
    neighbors := [(10, none)], savedDecisions := [], decision := 0 }

/-! ### The global Oral-Messages system

One commander (runtime slot `0`) and `algN - 1` other nodes on the complete
topology, runtime slot ids `0 .. algN-1`.  In-flight messages form an
unordered pool of `(destination-slot, message)` pairs — the runtime declares
`TotalReliability` (no losses) but gives no FIFO guarantee between nodes, so
deliveries pick any index.  `spawn` turns a handler's outbound messages into
pool entries, stamping the sender's slot as `source` and dropping the sender's
own slot from the destination list (`node.neighbors()` never contains the node
itself; the order of the neighbour list is not specified by the runtime and is
fixed here as ascending slot order).  An uncaught exception in a handler
(`KeyError`, `ValueError`, `IndexError`) aborts the whole simulation: the
`crash` step freezes every node in its current status and no further step is
possible.  Deliveries to a node whose status has no receiving handler other
than a logging no-op (`DONE`) or no handler at all (`ATTACK`, `RETREAT`)
consume the message and change nothing. -/

/-- The global state: the per-slot nodes, the unordered pool of in-flight
`(destination, message)` pairs, and the crash flag. -/
structure GState where
  nodes : List Node
  flight : List (Nat × InMsg)
  crashed : Bool
  deriving DecidableEq, Repr

/-- Expand outbound messages from the node at slot `src` into pool entries:
one per destination slot other than `src` itself, with `source := src`. -/
def spawn (src : Nat) (outs : List OutMsg) : List (Nat × InMsg) :=
  outs.flatMap (fun o => (o.dests.filter (fun d => d != src)).map
    (fun d => (d, { header := o.header, data := o.data, source := src })))

/-- One step of the simulation: the commander's spontaneous broadcast,
delivery of any pooled message to a node with a receiving handler
(successful or crashing the simulation), or delivery to a node that
ignores it. -/
inductive GStep (algD algM algN : Nat) : GState → GState → Prop where
  | spont (s : GState) (nd : Node) :
      s.crashed = false →
      s.nodes.get? 0 = some nd →
      nd.status = Status.COMMANDER →
      GStep algD algM algN s
        { s with
          nodes := s.nodes.set 0
            (spontaneously algM algN nd
              ((List.range algN).filter (fun j => j != 0))).1,
          flight := s.flight ++ spawn 0
            (spontaneously algM algN nd
              ((List.range algN).filter (fun j => j != 0))).2 }
  | deliver (s : GState) (idx d : Nat) (msg : InMsg) (nd nd' : Node)
      (out : List OutMsg) :
      s.crashed = false →
      s.flight.get? idx = some (d, msg) →
      s.nodes.get? d = some nd →
      nd.status = Status.TRAITOR ∨ nd.status = Status.LIEUTIENANT →
      receiving algD nd msg = .ok (nd', out) →
      GStep algD algM algN s
        { s with
          nodes := s.nodes.set d nd',
          flight := s.flight.eraseIdx idx ++ spawn d out }
  | ignore (s : GState) (idx d : Nat) (msg : InMsg) (nd : Node) :
      s.crashed = false →
      s.flight.get? idx = some (d, msg) →
      s.nodes.get? d = some nd →
      nd.status = Status.DONE ∨ nd.status = Status.ATTACK ∨
        nd.status = Status.RETREAT →
      GStep algD algM algN s { s with flight := s.flight.eraseIdx idx }
  | crash (s : GState) (idx d : Nat) (msg : InMsg) (nd : Node) (e : String) :
      s.crashed = false →
      s.flight.get? idx = some (d, msg) →
      s.nodes.get? d = some nd →
      nd.status = Status.TRAITOR ∨ nd.status = Status.LIEUTIENANT →
      receiving algD nd msg = .error e →
      GStep algD algM algN s { s with crashed := true }

/-- Reachability from a given initial configuration. -/
inductive GReach (algD algM algN : Nat) (s0 : GState) : GState → Prop where
  | init : GReach algD algM algN s0 s0
  | tail {s s' : GState} : GReach algD algM algN s0 s →
      GStep algD algM algN s s' → GReach algD algM algN s0 s'

/-- A terminal configuration: no step of the simulation applies. -/
def Terminal (algD algM algN : Nat) (s : GState) : Prop :=
  ∀ s', ¬ GStep algD algM algN s s'

/-- The initializer's output for `n = 10`, `m = 3`, commander decision `1`,
under the shuffle that puts the commander at slot 0 and the three traitors at
slots 7–9: every node knows `m`, holds the full unlearned neighbour table and
an empty `saved_decisions`; unique values are `100 + slot`
(`InitialDistinctValues`).  (`memory['decision']` is set only on the
commander; the field is never read by the other nodes' handlers.) -/
def c1Init : GState :=
  { nodes := (List.range 10).map (fun i =>
      { status := if i = 0 then Status.COMMANDER
                  else if 7 ≤ i then Status.TRAITOR else Status.LIEUTIENANT,
        uniqueValue := 100 + i, m := 3,
        neighbors := (List.range 10).map (fun j => (j, none)),
        savedDecisions := [], decision := 1 }),
    flight := [], crashed := false }

/-- The seventh `m = 0` relay for path `[100, 101, 102]`, sent by the node at
slot 9 to the lieutenant at slot 1, which completes the spurious entry. -/
def c1M9 : InMsg :=
  { header := "Decision",
    data := { id := 109, decision := 1, m := 0, path := [100, 101, 102], n := 7 },
    source := 9 }

/-- The lieutenant at slot 1 just before delivery of `c1M9`: it has processed
the commander's broadcast (entry for path `[100]`) and six spurious `m = 0`
relays for path `[100, 101, 102]` — a path containing its own unique value
`101`, reachable because the runtime gives no FIFO guarantee and the relaying
nodes had not yet learned slot 1's unique value when they computed their
destination lists. -/
def c1K1Pre : Node :=
  { status := Status.LIEUTIENANT, uniqueValue := 101, m := 3,
    neighbors := [(0, some 100), (1, none), (2, none), (3, some 103),
                  (4, some 104), (5, some 105), (6, some 106), (7, some 107),
                  (8, some 108), (9, none)],
    savedDecisions :=
      [([100], { decisions := [(101, 1)], total := 9 }),
       ([100, 101, 102],
        { decisions := [(103, 1), (104, 1), (105, 1), (106, 1), (107, 1),
                        (108, 1)], total := 7 })],
    decision := 1 }

/-- The node `c1K1Pre` after learning slot 9 and storing the seventh vote —
the node value on which the completed spurious entry is folded. -/
def c1NX : Node :=
  { status := Status.LIEUTIENANT, uniqueValue := 101, m := 3,
    neighbors := [(0, some 100), (1, none), (2, none), (3, some 103),
                  (4, some 104), (5, some 105), (6, some 106), (7, some 107),
                  (8, some 108), (9, some 109)],
    savedDecisions :=
      [([100], { decisions := [(101, 1)], total := 9 }),
       ([100, 101, 102],
        { decisions := [(103, 1), (104, 1), (105, 1), (106, 1), (107, 1),
                        (108, 1), (109, 1)], total := 7 })],
    decision := 1 }

/-- The completed spurious decision set for path `[100, 101, 102]` at slot 1. -/
def c1DX : List (Nat × Nat) :=
  [(103, 1), (104, 1), (105, 1), (106, 1), (107, 1), (108, 1), (109, 1)]

/-- The node `c1K1Pre` after its neighbour-learning preamble for `c1M9`
(slot 9 now maps to unique value 109), the input to `received_zero`. -/
def c1K1Learn : Node :=
  { c1K1Pre with
    neighbors := [(0, some 100), (1, none), (2, none), (3, some 103),
                  (4, some 104), (5, some 105), (6, some 106), (7, some 107),
                  (8, some 108), (9, some 109)] }

end Byz

namespace B3PC

/-! ## `Parte2/threepc_byzantine.py` — Byzantine-tolerant 3PC with signatures

The whole embedding is parametric in `hash : String → String`, the model of
`hashlib.sha256(...).hexdigest()` (an external library the code only composes;
`.hexdigest()[:16]` becomes `.take 16`).  The `FAULTY` adversary handler sends
messages but is not an honest receive path; the claims below are about honest
nodes, so only the honest handlers are embedded. -/

/-- `ThreePCByzantineAlgorithm.Status`. -/
inductive Status where
  | COORDINATOR
  | COORDINATOR_WAITING_PREPARED
  | COORDINATOR_WAITING_ACK
  | COORDINATOR_WAITING_DONE
  | COORDINATOR_ABORTING
  | SLEEP
  | WAITING_PRECOMMIT
  | WAITING_COMMIT
  | FAULTY
  | DONE
  deriving DecidableEq, Repr

/-- An inbound message: header, the `data` dict fields (`id`, `decision`,
`signature`) and the runtime-stamped source.  Messages without a `decision`
key are modelled with `decision = 0`; no handler reads `decision` from such a
message. -/
structure InMsg where
  header : String
  id : Nat
  decision : Nat
  signature : String
  source : Nat
  deriving DecidableEq, Repr

/-- Outbound destination: reply to `message.source`, broadcast to
`list(node.neighbors())`, or the single neighbour with runtime id `i`. -/
inductive Dest where
  | src
  | broadcast
  | toId (i : Nat)
  deriving DecidableEq, Repr

/-- An outbound message; `decision = none` when the `data` dict carries no
`decision` key. -/
structure OutMsg where
  header : String
  id : Nat
  decision : Option Nat
  signature : String
  dest : Dest
  deriving DecidableEq, Repr

/-- Pending alarms (`set_alarm(node, 20, Message(header=..., destination=node))`),
with the `Timeout_X_<id>` headers parsed structurally. -/
inductive Alarm where
  | Timeout_Prepared
  | Timeout_Ack (i : Nat)
  | Timeout_Done (i : Nat)
  | Timeout_Abort (i : Nat)
  deriving DecidableEq, Repr

/-- The per-node state: status plus the `memory` fields of the algorithm. -/
structure Node where
  status : Status
  uniqueValue : Nat
  m : Nat
  n : Nat
  prepare_votes : List (Nat × (Nat × String))
  ack_votes : List (Nat × String)
  node_status : List (Nat × String)
  private_key : String
  deriving DecidableEq, Repr

/-- A handler's effect: the new node state, outbound messages, armed alarms. -/
structure HRes where
  node : Node
  msgs : List OutMsg
  alarms : List Alarm
  deriving DecidableEq, Repr

variable (hash : String → String)

/-- `sign_message`: first 16 hex chars of `SHA-256(data ":" private_key)`. -/
def sign_message (node : Node) (message_data : String) : String :=
  (hash (message_data ++ ":" ++ node.private_key)).take 16

/-- `sign_message` with the private key given directly (the body of the
Python function, which reads `node.memory['private_key']`). -/
def signWithKey (private_key message_data : String) : String :=
  (hash (message_data ++ ":" ++ private_key)).take 16

/-- `verify_signature`: recompute the prefix from the asserted sender id
(`f"{message_data}:key_{sender_id}"`) and compare. -/
def verify_signature (message_data signature : String) (sender_id : Nat) : Bool :=
  signature == (hash (message_data ++ ":key_" ++ toString sender_id)).take 16

/-- `send_abort(self, node)`: broadcast a signed Abort, arm a
`Timeout_Abort_<id>` per neighbour, transition to `COORDINATOR_ABORTING`. -/
def send_abort (node : Node) : HRes :=
  let data_str := "abort:" ++ toString node.uniqueValue
  let signature := sign_message hash node data_str
  { node := { node with status := Status.COORDINATOR_ABORTING },
    msgs := [{ header := "Abort", id := node.uniqueValue, decision := none,
               signature := signature, dest := Dest.broadcast }],
    alarms := node.node_status.map (fun p => Alarm.Timeout_Abort p.1) }

/-- The no-effect result (message logged and dropped). -/
def skip (node : Node) : HRes := { node := node, msgs := [], alarms := [] }

/-- `@Status.COORDINATOR_WAITING_PREPARED receiving`. -/
def cwpReceiving (node : Node) (msg : InMsg) : HRes :=
  if msg.header = "Prepared" then
    let sender_id := msg.source
    let decision := msg.decision
    let signature := msg.signature
    let data_str := "prepared:" ++ toString msg.id ++ ":" ++ toString decision
    if ¬ verify_signature hash data_str signature msg.id then skip node
    else
      let node := { node with
                    prepare_votes := upsert node.prepare_votes msg.id (decision, signature),
                    node_status := upsert node.node_status sender_id "prepared" }
      if decision = 0 then send_abort hash node
      else if node.prepare_votes.length ≥ node.n - 1 then
        let commit_votes := (node.prepare_votes.map (fun p => p.2.1)).count 1
        if commit_votes ≥ node.n - 1 then
          let data_str := "precommit:" ++ toString node.uniqueValue
          let signature := sign_message hash node data_str
          { node := { node with status := Status.COORDINATOR_WAITING_ACK },
            msgs := [{ header := "PreCommit", id := node.uniqueValue, decision := none,
                       signature := signature, dest := Dest.broadcast }],
            alarms := node.node_status.map (fun p => Alarm.Timeout_Ack p.1) }
        else send_abort hash node
      else skip node
  else skip node

/-- `@Status.COORDINATOR_WAITING_ACK receiving`. -/
def cwaReceiving (node : Node) (msg : InMsg) : HRes :=
  if msg.header = "Ack" then
    let sender_id := msg.source
    let signature := msg.signature
    let data_str := "ack:" ++ toString msg.id
    if ¬ verify_signature hash data_str signature msg.id then skip node
    else
      let node := { node with
                    ack_votes := upsert node.ack_votes msg.id signature,
                    node_status := upsert node.node_status sender_id "ack" }
      if node.ack_votes.length ≥ node.n - 1 then
        let data_str := "commit:" ++ toString node.uniqueValue
        let signature := sign_message hash node data_str
        { node := { node with status := Status.COORDINATOR_WAITING_DONE },
          msgs := [{ header := "Commit", id := node.uniqueValue, decision := none,
                     signature := signature, dest := Dest.broadcast }],
          alarms := node.node_status.map (fun p => Alarm.Timeout_Done p.1) }
      else skip node
  else skip node

/-- `@Status.COORDINATOR_WAITING_DONE receiving`. -/
def cwdReceiving (node : Node) (msg : InMsg) : HRes :=
  if msg.header = "Done" then
    let sender_id := msg.source
    let signature := msg.signature
    let data_str := "done:" ++ toString msg.id
    if ¬ verify_signature hash data_str signature msg.id then skip node
    else
      let node := { node with node_status := upsert node.node_status sender_id "done" }
      let done_count := (node.node_status.map Prod.snd).count "done"
      if done_count ≥ node.n - 1 then
        { node := { node with status := Status.DONE }, msgs := [], alarms := [] }
      else skip node
  else skip node

/-- `@Status.COORDINATOR_ABORTING receiving` — note: no signature check. -/
def cabReceiving (node : Node) (msg : InMsg) : HRes :=
  if msg.header = "Aborted" then
    let sender_id := msg.source
    let node := { node with node_status := upsert node.node_status sender_id "aborted" }
    let aborted_count := (node.node_status.map Prod.snd).count "aborted"
    if aborted_count ≥ node.n - 1 then
      { node := { node with status := Status.DONE }, msgs := [], alarms := [] }
    else skip node
  else skip node

/-- `@Status.SLEEP receiving` (replica). -/
def sleepReceiving (node : Node) (msg : InMsg) : HRes :=
  if msg.header = "Prepare" then
    let coordinator_id := msg.id
    let signature := msg.signature
    let data_str := "prepare:" ++ toString coordinator_id
    if ¬ verify_signature hash data_str signature coordinator_id then skip node
    else
      let decision := 1
      let data_str := "prepared:" ++ toString node.uniqueValue ++ ":" ++ toString decision
      let signature := sign_message hash node data_str
      { node := { node with status := Status.WAITING_PRECOMMIT },
        msgs := [{ header := "Prepared", id := node.uniqueValue, decision := some decision,
                   signature := signature, dest := Dest.src }],
        alarms := [] }
  else skip node

/-- `@Status.WAITING_PRECOMMIT receiving` (replica): `PreCommit` and `Abort`
are verified; a duplicate `Prepare` is answered without verification. -/
def wpcReceiving (node : Node) (msg : InMsg) : HRes :=
  if msg.header = "PreCommit" then
    let coordinator_id := msg.id
    let signature := msg.signature
    let data_str := "precommit:" ++ toString coordinator_id
    if ¬ verify_signature hash data_str signature coordinator_id then skip node
    else
      let data_str := "ack:" ++ toString node.uniqueValue
      let signature := sign_message hash node data_str
      { node := { node with status := Status.WAITING_COMMIT },
        msgs := [{ header := "Ack", id := node.uniqueValue, decision := none,
                   signature := signature, dest := Dest.src }],
        alarms := [] }
  else if msg.header = "Abort" then
    let coordinator_id := msg.id
    let data_str := "abort:" ++ toString coordinator_id
    let signature := msg.signature
    if ¬ verify_signature hash data_str signature coordinator_id then skip node
    else
      let data_str := "aborted:" ++ toString node.uniqueValue
      let signature := sign_message hash node data_str
      { node := { node with status := Status.DONE },
        msgs := [{ header := "Aborted", id := node.uniqueValue, decision := none,
                   signature := signature, dest := Dest.src }],
        alarms := [] }
  else if msg.header = "Prepare" then
    let decision := 1
    let data_str := "prepared:" ++ toString node.uniqueValue ++ ":" ++ toString decision
    let signature := sign_message hash node data_str
    { node := node,
      msgs := [{ header := "Prepared", id := node.uniqueValue, decision := some decision,
                 signature := signature, dest := Dest.src }],
      alarms := [] }
  else skip node

/-- `@Status.WAITING_COMMIT receiving` (replica): `Commit` and `Abort` are
verified; a duplicate `PreCommit` is answered without verification. -/
def wcReceiving (node : Node) (msg : InMsg) : HRes :=
  if msg.header = "Commit" then
    let coordinator_id := msg.id
    let signature := msg.signature
    let data_str := "commit:" ++ toString coordinator_id
    if ¬ verify_signature hash data_str signature coordinator_id then skip node
    else
      let data_str := "done:" ++ toString node.uniqueValue
      let signature := sign_message hash node data_str
      { node := { node with status := Status.DONE },
        msgs := [{ header := "Done", id := node.uniqueValue, decision := none,
                   signature := signature, dest := Dest.src }],
        alarms := [] }
  else if msg.header = "Abort" then
    let coordinator_id := msg.id
    let data_str := "abort:" ++ toString coordinator_id
    let signature := msg.signature
    if ¬ verify_signature hash data_str signature coordinator_id then skip node
    else
      let data_str := "aborted:" ++ toString node.uniqueValue
      let signature := sign_message hash node data_str
      { node := { node with status := Status.DONE },
        msgs := [{ header := "Aborted", id := node.uniqueValue, decision := none,
                   signature := signature, dest := Dest.src }],
        alarms := [] }
  else if msg.header = "PreCommit" then
    let data_str := "ack:" ++ toString node.uniqueValue
    let signature := sign_message hash node data_str
    { node := node,
      msgs := [{ header := "Ack", id := node.uniqueValue, decision := none,
                 signature := signature, dest := Dest.src }],
      alarms := [] }
  else skip node

/-- `@Status.DONE default`: replies to duplicate `Commit`/`Abort` (without
verification), ignores everything else; never changes state. -/
def doneDefault (node : Node) (msg : InMsg) : HRes :=
  if msg.header = "Commit" then
    let data_str := "done:" ++ toString node.uniqueValue
    let signature := sign_message hash node data_str
    { node := node,
      msgs := [{ header := "Done", id := node.uniqueValue, decision := none,
                 signature := signature, dest := Dest.src }],
      alarms := [] }
  else if msg.header = "Abort" then
    let data_str := "aborted:" ++ toString node.uniqueValue
    let signature := sign_message hash node data_str
    { node := node,
      msgs := [{ header := "Aborted", id := node.uniqueValue, decision := none,
                 signature := signature, dest := Dest.src }],
      alarms := [] }
  else skip node

/-- Dispatch of an inbound message by the node's current status (the
decorator-based routing of the framework).  `COORDINATOR` defines no
`receiving` handler; `FAULTY` is the adversary and not an honest receive
path: both are modelled as dropping the message. -/
def receiving (node : Node) (msg : InMsg) : HRes :=
  match node.status with
  | Status.COORDINATOR_WAITING_PREPARED => cwpReceiving hash node msg
  | Status.COORDINATOR_WAITING_ACK => cwaReceiving hash node msg
  | Status.COORDINATOR_WAITING_DONE => cwdReceiving hash node msg
  | Status.COORDINATOR_ABORTING => cabReceiving node msg
  | Status.SLEEP => sleepReceiving hash node msg
  | Status.WAITING_PRECOMMIT => wpcReceiving hash node msg
  | Status.WAITING_COMMIT => wcReceiving hash node msg
  | Status.DONE => doneDefault hash node msg
  | _ => skip node

/-- `node.memory['node_status'][failed_id]`, total with a sentinel: the
alarm handlers only read ids they initialised, so the `KeyError` path of a
missing key cannot fire; the sentinel `""` differs from every stored status. -/
def statusOf (node : Node) (i : Nat) : String :=
  (alookup node.node_status i).getD ""

/-- `@Status.COORDINATOR_WAITING_PREPARED alarm`. -/
def cwpAlarm (node : Node) (a : Alarm) : HRes :=
  match a with
  | Alarm.Timeout_Prepared =>
    let sleeping := node.node_status.filter (fun p => p.2 = "sleep")
    let data_str := "prepare:" ++ toString node.uniqueValue
    let signature := sign_message hash node data_str
    { node := node,
      msgs := sleeping.map (fun p =>
        { header := "Prepare", id := node.uniqueValue, decision := none,
          signature := signature, dest := Dest.toId p.1 }),
      alarms := if sleeping.isEmpty then [] else [Alarm.Timeout_Prepared] }
  | _ => skip node

/-- `@Status.COORDINATOR_WAITING_ACK alarm`. -/
def cwaAlarm (node : Node) (a : Alarm) : HRes :=
  match a with
  | Alarm.Timeout_Ack failed_id =>
    if statusOf node failed_id ≠ "ack" then send_abort hash node else skip node
  | _ => skip node

/-- `@Status.COORDINATOR_WAITING_DONE alarm`. -/
def cwdAlarm (node : Node) (a : Alarm) : HRes :=
  match a with
  | Alarm.Timeout_Done failed_id =>
    if statusOf node failed_id ≠ "done" then
      let data_str := "commit:" ++ toString node.uniqueValue
      let signature := sign_message hash node data_str
      { node := node,
        msgs := [{ header := "Commit", id := node.uniqueValue, decision := none,
                   signature := signature, dest := Dest.toId failed_id }],
        alarms := [Alarm.Timeout_Done failed_id] }
    else skip node
  | _ => skip node

/-- `@Status.COORDINATOR_ABORTING alarm`. -/
def cabAlarm (node : Node) (a : Alarm) : HRes :=
  match a with
  | Alarm.Timeout_Abort failed_id =>
    if statusOf node failed_id ≠ "aborted" then
      let data_str := "abort:" ++ toString node.uniqueValue
      let signature := sign_message hash node data_str
      { node := node,
        msgs := [{ header := "Abort", id := node.uniqueValue, decision := none,
                   signature := signature, dest := Dest.toId failed_id }],
        alarms := [Alarm.Timeout_Abort failed_id] }
    else skip node
  | _ => skip node

/-- Alarm dispatch by status (statuses without an `alarm` handler ignore the
alarm; the `DONE` `default` handler ignores `Timeout_*` headers). -/
def alarm (node : Node) (a : Alarm) : HRes :=
  match node.status with
  | Status.COORDINATOR_WAITING_PREPARED => cwpAlarm hash node a
  | Status.COORDINATOR_WAITING_ACK => cwaAlarm hash node a
  | Status.COORDINATOR_WAITING_DONE => cwdAlarm hash node a
  | Status.COORDINATOR_ABORTING => cabAlarm hash node a
  | _ => skip node

/-- The canonical signed string asserted by a message, per the fixed grammar
of the protocol (`"prepared:"<pid>":"<decision>`, `"ack:"<pid>`, ...). -/
def canonicalStr (msg : InMsg) : String :=
  if msg.header = "Prepare" then "prepare:" ++ toString msg.id
  else if msg.header = "Prepared" then
    "prepared:" ++ toString msg.id ++ ":" ++ toString msg.decision
  else if msg.header = "PreCommit" then "precommit:" ++ toString msg.id
  else if msg.header = "Ack" then "ack:" ++ toString msg.id
  else if msg.header = "Commit" then "commit:" ++ toString msg.id
  else if msg.header = "Done" then "done:" ++ toString msg.id
  else if msg.header = "Abort" then "abort:" ++ toString msg.id
  else if msg.header = "Aborted" then "aborted:" ++ toString msg.id
  else ""


/-! Concrete values for counterexamples and witnesses; `hashId` is the
concrete stand-in for the hash parameter in closed statements. -/

def hashId : String → String := fun s => s

def c3Node : Node :=
  { status := Status.COORDINATOR_ABORTING, uniqueValue := 1, m := 1, n := 2,
    prepare_votes := [], ack_votes := [], node_status := [(3, "sleep")],
    private_key := "key_1" }

def c3Msg : InMsg :=
  { header := "Aborted", id := 3, decision := 0, signature := "bogus", source := 3 }

def c3wNode : Node :=
  { status := Status.SLEEP, uniqueValue := 4, m := 1, n := 3,
    prepare_votes := [], ack_votes := [], node_status := [], private_key := "key_4" }

def c3wMsg : InMsg :=
  { header := "Prepare", id := 1, decision := 0, signature := "forged", source := 1 }

def AllValidPrepared (hash : String → String) (node : Node) : Prop :=
  ∀ id d s, alookup node.prepare_votes id = some (d, s) →
    verify_signature hash ("prepared:" ++ toString id ++ ":" ++ toString d) s id = true

def AllValidAck (hash : String → String) (node : Node) : Prop :=
  ∀ id s, alookup node.ack_votes id = some s →
    verify_signature hash ("ack:" ++ toString id) s id = true

def c5Node : Node :=
  { status := Status.COORDINATOR_WAITING_PREPARED, uniqueValue := 1, m := 0, n := 2,
    prepare_votes := [], ack_votes := [], node_status := [(3, "sleep")],
    private_key := "key_1" }

def c5Msg : InMsg :=
  { header := "Prepared", id := 3, decision := 1, signature := "prepared:3:1:key", source := 3 }

end B3PC

namespace TwoPC

/-! ## `Parte2/twopc.py` — Two-Phase Commit

Per-node handlers plus a global transition system over one coordinator and `K`
participants (the complete topology of the simulation, with participant
runtime ids `0 .. K-1`).  In-flight messages form an unordered pool
(deliveries pick any index), armed alarms may fire at any later step, and a
message may be lost (`TotalReliability` is not among the algorithm's
restrictions).  The `log` field is the append-only trace of every message
ever sent, used to state run properties. -/

/-- `TwoPCAlgorithm.Status`. -/
inductive Status where
  | COORDINATOR
  | COORDINATOR_WAITING_PREPARED
  | COORDINATOR_WAITING_ACK
  | SLEEP
  | WAITING
  | DONE
  deriving DecidableEq, Repr

/-- A node reference: the coordinator or the participant with runtime id `i`. -/
inductive NRef where
  | coord
  | part (i : Nat)
  deriving DecidableEq, Repr

/-- A protocol message; `decision` is `data['decision']` (meaningful only on
`Prepared`, `0` elsewhere and never read). -/
structure Msg where
  src : NRef
  dst : NRef
  header : String
  decision : Nat
  deriving DecidableEq, Repr

/-- Coordinator alarms, `Timeout_Prepared` and `Timeout_Ack_<id>`. -/
inductive Alarm where
  | Timeout_Prepared
  | Timeout_Ack (i : Nat)
  deriving DecidableEq, Repr

/-- The coordinator's memory: `count`, `node_status`
(`{neighbor-id ↦ 'sleep'|'prepared'|'ack'}`) and the stored `decision`
(`none` until the vote collection finishes; reading it then would be a
`KeyError`). -/
structure CoordSt where
  status : Status
  count : Int
  node_status : List (Nat × String)
  decision : Option String
  deriving DecidableEq, Repr

/-- The effect of a coordinator event: new memory, sent messages, armed
alarms. -/
structure CRes where
  coord : CoordSt
  msgs : List Msg
  alarms : List Alarm
  deriving DecidableEq, Repr

/-- `@Status.COORDINATOR spontaneously`: `Prepare` to every neighbour, arm
`Timeout_Prepared`, go to `COORDINATOR_WAITING_PREPARED`. -/
def spontaneously (K : Nat) (c : CoordSt) : CRes :=
  { coord := { c with status := Status.COORDINATOR_WAITING_PREPARED },
    msgs := (List.range K).map (fun i =>
      { src := NRef.coord, dst := NRef.part i, header := "Prepare", decision := 0 }),
    alarms := [Alarm.Timeout_Prepared] }

/-- The numeric source id of a message (`message.source.id`); messages
reaching the coordinator always come from a participant, the sentinel for
`coord` is never exercised in a run. -/
def srcId (m : Msg) : Nat :=
  match m.src with
  | NRef.part i => i
  | NRef.coord => 0

/-- `receiving`/`default` dispatch for the coordinator.  The neighbour-id
learning loop writes `memory['neighbors']`, which no later 2PC code reads, and
is omitted.  A `DONE` node raises on anything but duplicate
`Commit`/`Abort`. -/
def coordReceiving (K : Nat) (c : CoordSt) (m : Msg) : Except String CRes :=
  match c.status with
  | Status.COORDINATOR_WAITING_PREPARED =>
    if m.header = "Prepared" then
      let c := { c with count := c.count - 1 }
      if m.decision = 0 then
        .ok { coord := { c with decision := some "Abort",
                                count := (K : Int),
                                status := Status.COORDINATOR_WAITING_ACK },
              msgs := (List.range K).map (fun i =>
                { src := NRef.coord, dst := NRef.part i, header := "Abort", decision := 0 }),
              alarms := c.node_status.map (fun p => Alarm.Timeout_Ack p.1) }
      else
        let c := { c with node_status := upsert c.node_status (srcId m) "prepared" }
        if c.count = 0 then
          .ok { coord := { c with decision := some "Commit",
                                  count := (K : Int),
                                  status := Status.COORDINATOR_WAITING_ACK },
                msgs := (List.range K).map (fun i =>
                  { src := NRef.coord, dst := NRef.part i, header := "Commit", decision := 0 }),
                alarms := c.node_status.map (fun p => Alarm.Timeout_Ack p.1) }
        else .ok { coord := c, msgs := [], alarms := [] }
    else .ok { coord := c, msgs := [], alarms := [] }
  | Status.COORDINATOR_WAITING_ACK =>
    if m.header = "Ack" then
      let c := { c with count := c.count - 1,
                        node_status := upsert c.node_status (srcId m) "ack" }
      if c.count = 0 then
        .ok { coord := { c with status := Status.DONE }, msgs := [], alarms := [] }
      else .ok { coord := c, msgs := [], alarms := [] }
    else .ok { coord := c, msgs := [], alarms := [] }
  | Status.DONE =>
    if m.header = "Commit" ∨ m.header = "Abort" then
      .ok { coord := c,
            msgs := [{ src := NRef.coord, dst := m.src, header := "Ack", decision := 0 }],
            alarms := [] }
    else .error "Node is in DONE state and should not receive messages."
  | _ => .ok { coord := c, msgs := [], alarms := [] }

/-- `alarm` dispatch for the coordinator.  In `COORDINATOR_WAITING_ACK` the
stored decision is the retransmitted header (a missing decision would be a
`KeyError`); the alarm is re-armed only when a retransmission happened. -/
def coordAlarm (c : CoordSt) (a : Alarm) : Except String CRes :=
  match c.status with
  | Status.COORDINATOR_WAITING_PREPARED =>
    match a with
    | Alarm.Timeout_Prepared =>
      let sleeping := c.node_status.filter (fun p => p.2 = "sleep")
      .ok { coord := c,
            msgs := sleeping.map (fun p =>
              { src := NRef.coord, dst := NRef.part p.1, header := "Prepare", decision := 0 }),
            alarms := if sleeping.isEmpty then [] else [Alarm.Timeout_Prepared] }
    | _ => .ok { coord := c, msgs := [], alarms := [] }
  | Status.COORDINATOR_WAITING_ACK =>
    match a with
    | Alarm.Timeout_Ack failed_id =>
      if (alookup c.node_status failed_id).getD "" ≠ "ack" then
        match c.decision with
        | none => .error "KeyError: memory['decision']"
        | some d =>
          .ok { coord := c,
                msgs := [{ src := NRef.coord, dst := NRef.part failed_id,
                           header := d, decision := 0 }],
                alarms := [Alarm.Timeout_Ack failed_id] }
      else .ok { coord := c, msgs := [], alarms := [] }
    | _ => .ok { coord := c, msgs := [], alarms := [] }
  | _ => .ok { coord := c, msgs := [], alarms := [] }

/-- `receiving`/`default` dispatch for a participant with reference `self`
(participants hold no 2PC memory beyond their status). -/
def partReceiving (self : NRef) (st : Status) (m : Msg) :
    Except String (Status × List Msg) :=
  match st with
  | Status.SLEEP =>
    if m.header = "Prepare" then
      .ok (Status.WAITING,
        [{ src := self, dst := m.src, header := "Prepared", decision := 1 }])
    else .ok (Status.SLEEP, [])
  | Status.WAITING =>
    if m.header = "Commit" then
      .ok (Status.DONE, [{ src := self, dst := m.src, header := "Ack", decision := 0 }])
    else if m.header = "Abort" then
      .ok (Status.DONE, [{ src := self, dst := m.src, header := "Ack", decision := 0 }])
    else if m.header = "Prepare" then
      .ok (Status.WAITING,
        [{ src := self, dst := m.src, header := "Prepared", decision := 1 }])
    else .ok (Status.WAITING, [])
  | Status.DONE =>
    if m.header = "Commit" ∨ m.header = "Abort" then
      .ok (Status.DONE, [{ src := self, dst := m.src, header := "Ack", decision := 0 }])
    else .error "Node is in DONE state and should not receive messages."
  | st => .ok (st, [])

/-- The global state: the coordinator, the `K` participant statuses, the pool
of in-flight messages, the armed alarms, and the trace of all sent
messages. -/
structure GState where
  coord : CoordSt
  parts : List Status
  flight : List Msg
  alarms : List Alarm
  log : List Msg
  deriving DecidableEq, Repr

/-- The state produced by the initializer: `count = len(nodes) - 1 = K`,
every `node_status` entry `'sleep'`, all participants `SLEEP`.  (The
coordinator's `INI` self-message is the `spont` step.) -/
def initState (K : Nat) : GState :=
  { coord := { status := Status.COORDINATOR, count := (K : Int),
               node_status := (List.range K).map (fun i => (i, "sleep")),
               decision := none },
    parts := List.replicate K Status.SLEEP,
    flight := [], alarms := [], log := [] }

/-- One step of the simulation: the coordinator's spontaneous start, delivery
of any in-flight message to its destination, loss of any in-flight message,
or the firing of any armed alarm. -/
inductive Step (K : Nat) : GState → GState → Prop where
  | spont (s : GState) :
      s.coord.status = Status.COORDINATOR →
      Step K s
        { s with
          coord := (spontaneously K s.coord).coord,
          flight := s.flight ++ (spontaneously K s.coord).msgs,
          alarms := s.alarms ++ (spontaneously K s.coord).alarms,
          log := s.log ++ (spontaneously K s.coord).msgs }
  | deliverCoord (s : GState) (idx : Nat) (m : Msg) (r : CRes) :
      s.flight.get? idx = some m → m.dst = NRef.coord →
      coordReceiving K s.coord m = .ok r →
      Step K s
        { s with
          coord := r.coord,
          flight := s.flight.eraseIdx idx ++ r.msgs,
          alarms := s.alarms ++ r.alarms,
          log := s.log ++ r.msgs }
  | deliverPart (s : GState) (idx : Nat) (m : Msg) (i : Nat) (pst : Status)
      (st2 : Status) (out : List Msg) :
      s.flight.get? idx = some m → m.dst = NRef.part i →
      s.parts.get? i = some pst →
      partReceiving (NRef.part i) pst m = .ok (st2, out) →
      Step K s
        { s with
          parts := s.parts.set i st2,
          flight := s.flight.eraseIdx idx ++ out,
          log := s.log ++ out }
  | drop (s : GState) (idx : Nat) (m : Msg) :
      s.flight.get? idx = some m →
      Step K s { s with flight := s.flight.eraseIdx idx }
  | fire (s : GState) (idx : Nat) (a : Alarm) (r : CRes) :
      s.alarms.get? idx = some a →
      coordAlarm s.coord a = .ok r →
      Step K s
        { s with
          coord := r.coord,
          alarms := s.alarms.eraseIdx idx ++ r.alarms,
          flight := s.flight ++ r.msgs,
          log := s.log ++ r.msgs }

/-- Reachability from the initial state. -/
inductive Reach (K : Nat) : GState → Prop where
  | init : Reach K (initState K)
  | tail {s s' : GState} : Reach K s → Step K s s' → Reach K s'

end TwoPC

namespace ThreePC

/-! ## `Parte2/threepc.py` — Three-Phase Commit

Same global-system conventions as namespace `TwoPC`: one coordinator, `K`
participants `0 .. K-1`, an unordered in-flight pool with possible loss,
alarms that may fire at any later step, and an append-only `log` trace. -/

/-- `ThreePCAlgorithm.Status`. -/
inductive Status where
  | COORDINATOR
  | COORDINATOR_WAITING_PREPARED
  | COORDINATOR_WAITING_ACK
  | COORDINATOR_WAITING_DONE
  | COORDINATOR_ABORTING
  | SLEEP
  | WAITING_PRECOMMIT
  | WAITING
  | DONE
  deriving DecidableEq, Repr

/-- A node reference. -/
inductive NRef where
  | coord
  | part (i : Nat)
  deriving DecidableEq, Repr

/-- A protocol message (`decision` is `data['decision']`, meaningful on
`Prepared`). -/
structure Msg where
  src : NRef
  dst : NRef
  header : String
  decision : Nat
  deriving DecidableEq, Repr

/-- Coordinator alarms: `Timeout_Prepared`, `Timeout_Ack_<id>`,
`Timeout_Done_<id>`, `Timeout_Abort_<id>`. -/
inductive Alarm where
  | Timeout_Prepared
  | Timeout_Ack (i : Nat)
  | Timeout_Done (i : Nat)
  | Timeout_Abort (i : Nat)
  deriving DecidableEq, Repr

/-- The coordinator's memory (3PC stores no `decision` string). -/
structure CoordSt where
  status : Status
  count : Int
  node_status : List (Nat × String)
  deriving DecidableEq, Repr

/-- The effect of a coordinator event. -/
structure CRes where
  coord : CoordSt
  msgs : List Msg
  alarms : List Alarm
  deriving DecidableEq, Repr

/-- `@Status.COORDINATOR spontaneously`. -/
def spontaneously (K : Nat) (c : CoordSt) : CRes :=
  { coord := { c with status := Status.COORDINATOR_WAITING_PREPARED },
    msgs := (List.range K).map (fun i =>
      { src := NRef.coord, dst := NRef.part i, header := "Prepare", decision := 0 }),
    alarms := [Alarm.Timeout_Prepared] }

/-- The numeric source id of a message (`message.source.id`). -/
def srcId (m : Msg) : Nat :=
  match m.src with
  | NRef.part i => i
  | NRef.coord => 0

/-- `receiving`/`default` dispatch for the coordinator (the unused
neighbour-learning loop is omitted, as in 2PC). -/
def coordReceiving (K : Nat) (c : CoordSt) (m : Msg) : Except String CRes :=
  match c.status with
  | Status.COORDINATOR_WAITING_PREPARED =>
    if m.header = "Prepared" then
      let c := { c with count := c.count - 1 }
      if m.decision = 0 then
        .ok { coord := { c with count := (K : Int),
                                status := Status.COORDINATOR_ABORTING },
              msgs := (List.range K).map (fun i =>
                { src := NRef.coord, dst := NRef.part i, header := "Abort", decision := 0 }),
              alarms := c.node_status.map (fun p => Alarm.Timeout_Abort p.1) }
      else
        let c := { c with node_status := upsert c.node_status (srcId m) "prepared" }
        if c.count = 0 then
          .ok { coord := { c with count := (K : Int),
                                  status := Status.COORDINATOR_WAITING_ACK },
                msgs := (List.range K).map (fun i =>
                  { src := NRef.coord, dst := NRef.part i, header := "PreCommit", decision := 0 }),
                alarms := c.node_status.map (fun p => Alarm.Timeout_Ack p.1) }
        else .ok { coord := c, msgs := [], alarms := [] }
    else .ok { coord := c, msgs := [], alarms := [] }
  | Status.COORDINATOR_WAITING_ACK =>
    if m.header = "Ack" then
      let c := { c with count := c.count - 1,
                        node_status := upsert c.node_status (srcId m) "ack" }
      if c.count = 0 then
        .ok { coord := { c with count := (K : Int),
                                status := Status.COORDINATOR_WAITING_DONE },
              msgs := (List.range K).map (fun i =>
                { src := NRef.coord, dst := NRef.part i, header := "Commit", decision := 0 }),
              alarms := c.node_status.map (fun p => Alarm.Timeout_Done p.1) }
      else .ok { coord := c, msgs := [], alarms := [] }
    else .ok { coord := c, msgs := [], alarms := [] }
  | Status.COORDINATOR_WAITING_DONE =>
    if m.header = "Done" then
      let c := { c with count := c.count - 1,
                        node_status := upsert c.node_status (srcId m) "done" }
      if c.count = 0 then
        .ok { coord := { c with status := Status.DONE }, msgs := [], alarms := [] }
      else .ok { coord := c, msgs := [], alarms := [] }
    else .ok { coord := c, msgs := [], alarms := [] }
  | Status.COORDINATOR_ABORTING =>
    if m.header = "Aborted" then
      let c := { c with count := c.count - 1,
                        node_status := upsert c.node_status (srcId m) "aborted" }
      if c.count = 0 then
        .ok { coord := { c with status := Status.DONE }, msgs := [], alarms := [] }
      else .ok { coord := c, msgs := [], alarms := [] }
    else .ok { coord := c, msgs := [], alarms := [] }
  | Status.DONE =>
    if m.header = "Commit" then
      .ok { coord := c,
            msgs := [{ src := NRef.coord, dst := m.src, header := "Ack", decision := 0 }],
            alarms := [] }
    else if m.header = "Abort" then
      .ok { coord := c,
            msgs := [{ src := NRef.coord, dst := m.src, header := "Aborted", decision := 0 }],
            alarms := [] }
    else .error "Node is in DONE state and should not receive messages."
  | _ => .ok { coord := c, msgs := [], alarms := [] }

/-- `alarm` dispatch for the coordinator.  `Timeout_Ack_<id>` with a missing
ACK aborts (rather than retransmitting); `Timeout_Done_<id>` retransmits
`Commit` without re-arming; `Timeout_Abort_<id>` retransmits `Abort` and
re-arms. -/
def coordAlarm (K : Nat) (c : CoordSt) (a : Alarm) : CRes :=
  match c.status with
  | Status.COORDINATOR_WAITING_PREPARED =>
    match a with
    | Alarm.Timeout_Prepared =>
      let sleeping := c.node_status.filter (fun p => p.2 = "sleep")
      { coord := c,
        msgs := sleeping.map (fun p =>
          { src := NRef.coord, dst := NRef.part p.1, header := "Prepare", decision := 0 }),
        alarms := if sleeping.isEmpty then [] else [Alarm.Timeout_Prepared] }
    | _ => { coord := c, msgs := [], alarms := [] }
  | Status.COORDINATOR_WAITING_ACK =>
    match a with
    | Alarm.Timeout_Ack failed_id =>
      if (alookup c.node_status failed_id).getD "" ≠ "ack" then
        { coord := { c with count := (K : Int),
                            status := Status.COORDINATOR_ABORTING },
          msgs := (List.range K).map (fun i =>
            { src := NRef.coord, dst := NRef.part i, header := "Abort", decision := 0 }),
          alarms := c.node_status.map (fun p => Alarm.Timeout_Abort p.1) }
      else { coord := c, msgs := [], alarms := [] }
    | _ => { coord := c, msgs := [], alarms := [] }
  | Status.COORDINATOR_WAITING_DONE =>
    match a with
    | Alarm.Timeout_Done failed_id =>
      if (alookup c.node_status failed_id).getD "" ≠ "done" then
        { coord := c,
          msgs := [{ src := NRef.coord, dst := NRef.part failed_id,
                     header := "Commit", decision := 0 }],
          alarms := [] }
      else { coord := c, msgs := [], alarms := [] }
    | _ => { coord := c, msgs := [], alarms := [] }
  | Status.COORDINATOR_ABORTING =>
    match a with
    | Alarm.Timeout_Abort failed_id =>
      if (alookup c.node_status failed_id).getD "" ≠ "aborted" then
        { coord := c,
          msgs := [{ src := NRef.coord, dst := NRef.part failed_id,
                     header := "Abort", decision := 0 }],
          alarms := [Alarm.Timeout_Abort failed_id] }
      else { coord := c, msgs := [], alarms := [] }
    | _ => { coord := c, msgs := [], alarms := [] }
  | _ => { coord := c, msgs := [], alarms := [] }

/-- `receiving`/`default` dispatch for a participant.  In `DONE`, a duplicate
`Commit` is answered with `Ack` (not with the `Done` the node originally sent),
a duplicate `Abort` with `Aborted`; anything else raises. -/
def partReceiving (self : NRef) (st : Status) (m : Msg) :
    Except String (Status × List Msg) :=
  match st with
  | Status.SLEEP =>
    if m.header = "Prepare" then
      .ok (Status.WAITING_PRECOMMIT,
        [{ src := self, dst := m.src, header := "Prepared", decision := 1 }])
    else .ok (Status.SLEEP, [])
  | Status.WAITING_PRECOMMIT =>
    if m.header = "PreCommit" then
      .ok (Status.WAITING, [{ src := self, dst := m.src, header := "Ack", decision := 0 }])
    else if m.header = "Abort" then
      .ok (Status.DONE, [{ src := self, dst := m.src, header := "Aborted", decision := 0 }])
    else if m.header = "Prepare" then
      .ok (Status.WAITING_PRECOMMIT,
        [{ src := self, dst := m.src, header := "Prepared", decision := 1 }])
    else .ok (Status.WAITING_PRECOMMIT, [])
  | Status.WAITING =>
    if m.header = "Commit" then
      .ok (Status.DONE, [{ src := self, dst := m.src, header := "Done", decision := 0 }])
    else if m.header = "Abort" then
      .ok (Status.DONE, [{ src := self, dst := m.src, header := "Aborted", decision := 0 }])
    else if m.header = "PreCommit" then
      .ok (Status.WAITING, [{ src := self, dst := m.src, header := "Ack", decision := 1 }])
    else .ok (Status.WAITING, [])
  | Status.DONE =>
    if m.header = "Commit" then
      .ok (Status.DONE, [{ src := self, dst := m.src, header := "Ack", decision := 0 }])
    else if m.header = "Abort" then
      .ok (Status.DONE, [{ src := self, dst := m.src, header := "Aborted", decision := 0 }])
    else .error "Node is in DONE state and should not receive messages."
  | st => .ok (st, [])

/-- The global state of a 3PC run. -/
structure GState where
  coord : CoordSt
  parts : List Status
  flight : List Msg
  alarms : List Alarm
  log : List Msg
  deriving DecidableEq, Repr

/-- The state produced by the initializer. -/
def initState (K : Nat) : GState :=
  { coord := { status := Status.COORDINATOR, count := (K : Int),
               node_status := (List.range K).map (fun i => (i, "sleep")) },
    parts := List.replicate K Status.SLEEP,
    flight := [], alarms := [], log := [] }

/-- One step of the simulation (same event kinds as in `TwoPC`). -/
inductive Step (K : Nat) : GState → GState → Prop where
  | spont (s : GState) :
      s.coord.status = Status.COORDINATOR →
      Step K s
        { s with
          coord := (spontaneously K s.coord).coord,
          flight := s.flight ++ (spontaneously K s.coord).msgs,
          alarms := s.alarms ++ (spontaneously K s.coord).alarms,
          log := s.log ++ (spontaneously K s.coord).msgs }
  | deliverCoord (s : GState) (idx : Nat) (m : Msg) (r : CRes) :
      s.flight.get? idx = some m → m.dst = NRef.coord →
      coordReceiving K s.coord m = .ok r →
      Step K s
        { s with
          coord := r.coord,
          flight := s.flight.eraseIdx idx ++ r.msgs,
          alarms := s.alarms ++ r.alarms,
          log := s.log ++ r.msgs }
  | deliverPart (s : GState) (idx : Nat) (m : Msg) (i : Nat) (pst : Status)
      (st2 : Status) (out : List Msg) :
      s.flight.get? idx = some m → m.dst = NRef.part i →
      s.parts.get? i = some pst →
      partReceiving (NRef.part i) pst m = .ok (st2, out) →
      Step K s
        { s with
          parts := s.parts.set i st2,
          flight := s.flight.eraseIdx idx ++ out,
          log := s.log ++ out }
  | drop (s : GState) (idx : Nat) (m : Msg) :
      s.flight.get? idx = some m →
      Step K s { s with flight := s.flight.eraseIdx idx }
  | fire (s : GState) (idx : Nat) (a : Alarm) :
      s.alarms.get? idx = some a →
      Step K s
        { s with
          coord := (coordAlarm K s.coord a).coord,
          alarms := s.alarms.eraseIdx idx ++ (coordAlarm K s.coord a).alarms,
          flight := s.flight ++ (coordAlarm K s.coord a).msgs,
          log := s.log ++ (coordAlarm K s.coord a).msgs }

/-- Reachability from the initial state. -/
inductive Reach (K : Nat) : GState → Prop where
  | init : Reach K (initState K)
  | tail {s s' : GState} : Reach K s → Step K s s' → Reach K s'

/-- Some message with header `h` occurs in the trace `l`. -/
def SentHdr (l : List Msg) (h : String) : Prop :=
  ∃ m, m ∈ l ∧ m.header = h

/-- Some participant-sent message with header `h` occurs in the trace `l`. -/
def SentPartHdr (l : List Msg) (h : String) : Prop :=
  ∃ m i, m ∈ l ∧ m.src = NRef.part i ∧ m.header = h

end ThreePC

/-- A coordinator `Commit` message to participant 0 (3PC), used in the C9
counterexample and witness. -/
def c9Commit3 : ThreePC.Msg :=
  { src := ThreePC.NRef.coord, dst := ThreePC.NRef.part 0,
    header := "Commit", decision := 0 }

/-- A coordinator `Commit` message to participant 0 (2PC), used in the C9
witness. -/
def c9Commit2 : TwoPC.Msg :=
  { src := TwoPC.NRef.coord, dst := TwoPC.NRef.part 0,
    header := "Commit", decision := 0 }

/-- A coordinator memory in `COORDINATOR_WAITING_ACK` with two outstanding
acknowledgements, used in the C10 witness. -/
def c10coord : TwoPC.CoordSt :=
  { status := TwoPC.Status.COORDINATOR_WAITING_ACK, count := 2,
    node_status := [(0, "prepared"), (1, "prepared")],
    decision := some "Commit" }

/-- An `Ack` from participant 0 to the coordinator (2PC), used in the C10
witness. -/
def c10msg : TwoPC.Msg :=
  { src := TwoPC.NRef.part 0, dst := TwoPC.NRef.coord,
    header := "Ack", decision := 0 }

end Spec2Proof

/-! ## Theorems -/

namespace Spec2Proof

theorem alookup_upsert {K V : Type} [DecidableEq K] (l : List (K × V)) (k k' : K) (v : V) :
    alookup (upsert l k v) k' = if k' = k then some v else alookup l k' := by
  induction l with
  | nil =>
    by_cases h : k' = k
    · subst h; simp [upsert, alookup]
    · simp [upsert, alookup, h, Ne.symm h]
  | cons p t ih =>
    obtain ⟨a, b⟩ := p
    by_cases hak : a = k
    · subst hak
      by_cases h : k' = a
      · subst h; simp [upsert, alookup]
      · simp [upsert, alookup, h, Ne.symm h]
    · by_cases h : k' = a
      · subst h
        simp [upsert, alookup, hak]
      · simp [upsert, alookup, hak, h, Ne.symm h, ih]

theorem alookup_mapval {K V W : Type} [DecidableEq K] (l : List (K × V)) (f : V → W) (k : K) :
    alookup (l.map (fun kv => (kv.1, f kv.2))) k = (alookup l k).map f := by
  induction l with
  | nil => simp [alookup]
  | cons p t ih =>
    obtain ⟨a, b⟩ := p
    by_cases h : a = k <;> simp [alookup, h, ih]

namespace Byz

theorem insSorted_length (p : Nat × Nat) (l : List (Nat × Nat)) :
    (insSorted p l).length = l.length + 1 := by
  induction l with
  | nil => simp [insSorted]
  | cons q t ih =>
    by_cases h : p.1 ≤ q.1 <;> simp [insSorted, h, ih]

theorem sortByKey_length (l : List (Nat × Nat)) : (sortByKey l).length = l.length := by
  induction l with
  | nil => simp [sortByKey]
  | cons p t ih => simp [sortByKey, insSorted_length, ih]

theorem entriesOK_upsert {node : Node} {k : List Nat} {e : Entry}
    (h : EntriesOK node) (he : e.decisions.length ≤ e.total) :
    EntriesOK { node with savedDecisions := upsert node.savedDecisions k e } := by
  intro k' e' hl
  simp only [alookup_upsert] at hl
  by_cases hk : k' = k
  · simp [hk] at hl
    exact hl ▸ he
  · simp [hk] at hl
    exact h k' e' hl

theorem alookup_sortAll (l : List (List Nat × Entry)) (k : List Nat) :
    alookup (l.map (fun kv => (kv.1, { kv.2 with decisions := sortByKey kv.2.decisions }))) k =
      (alookup l k).map (fun e => { e with decisions := sortByKey e.decisions }) := by
  induction l with
  | nil => simp [alookup]
  | cons p t ih =>
    by_cases h : p.1 = k <;> simp [alookup, h, ih]

theorem entriesOK_sortAll {node : Node} (h : EntriesOK node) :
    EntriesOK { node with
      savedDecisions := node.savedDecisions.map
        (fun kv => (kv.1, { kv.2 with decisions := sortByKey kv.2.decisions })) } := by
  intro k e hl
  simp only [alookup_sortAll] at hl
  cases hle : alookup node.savedDecisions k with
  | none => rw [hle] at hl; simp at hl
  | some e0 =>
    rw [hle] at hl
    simp at hl
    have := h k e0 hle
    rw [← hl]
    simpa [sortByKey_length] using this

theorem pfd_nil (node : Node) (ds : List (Nat × Nat)) :
    process_final_decision node [] ds = .error "IndexError: path[-1] on empty path" := by
  rw [process_final_decision.eq_def]
  simp

theorem pfd_top (node : Node) (a : Nat) (ds : List (Nat × Nat)) :
    process_final_decision node [a] ds =
      (if Status.TRAITOR = node.status then .ok node
       else .ok { node with
          savedDecisions := node.savedDecisions.map
            (fun kv => (kv.1, { kv.2 with decisions := sortByKey kv.2.decisions })),
          status := if majority_decision ds = 1 then Status.ATTACK else Status.RETREAT }) := by
  rw [process_final_decision.eq_def]
  rw [dif_neg (by simp : ¬ ([a] : List Nat) = [])]
  rw [if_pos (by simp : ([a] : List Nat).length = 1)]

theorem pfd_step (node : Node) (q : Nat) (qt : List Nat) (father : Nat)
    (ds : List (Nat × Nat)) :
    process_final_decision node ((q :: qt) ++ [father]) ds =
      match alookup node.savedDecisions (q :: qt) with
      | none => .error "KeyError: saved_decisions[path]"
      | some entry =>
        let entry' : Entry :=
          { entry with decisions := upsert entry.decisions father (majority_decision ds) }
        let node' : Node :=
          { node with savedDecisions := upsert node.savedDecisions (q :: qt) entry' }
        match has_all_decisions entry'.decisions entry'.total with
        | .error e => .error e
        | .ok b =>
          if b then process_final_decision node' (q :: qt) entry'.decisions
          else .ok node' := by
  rw [process_final_decision.eq_def]
  rw [dif_neg (by simp : ¬ (q :: qt) ++ [father] = [])]
  have hlast : ∀ hh, ((q :: qt) ++ [father]).getLast hh = father :=
    fun hh => List.getLast_append_singleton (q :: qt)
  have hdrop : ((q :: qt) ++ [father]).dropLast = q :: qt := by
    have := @List.dropLast_concat Nat (q :: qt) father
    simpa using this
  rw [hlast, hdrop]
  rw [if_neg (show ¬ ((q :: qt) ++ [father]).length = 1 by simp)]

theorem pfd_preserves : ∀ (path : List Nat) (node : Node) (ds : List (Nat × Nat)) (node' : Node),
    EntriesOK node → process_final_decision node path ds = .ok node' → EntriesOK node' := by
  intro path
  induction path using List.reverseRecOn with
  | nil =>
    intro node ds node' _ hrun
    rw [pfd_nil] at hrun
    exact absurd hrun (by simp)
  | append_singleton l a ih =>
    intro node ds node' hOK hrun
    cases l with
    | nil =>
      rw [show ([] : List Nat) ++ [a] = [a] from rfl, pfd_top] at hrun
      by_cases ht : Status.TRAITOR = node.status
      · rw [if_pos ht] at hrun
        cases hrun
        exact hOK
      · rw [if_neg ht] at hrun
        cases hrun
        exact entriesOK_sortAll hOK
    | cons q qt =>
      rw [pfd_step] at hrun
      cases hle : alookup node.savedDecisions (q :: qt) with
      | none => rw [hle] at hrun; exact absurd hrun (by simp)
      | some entry =>
        rw [hle] at hrun
        simp only at hrun
        cases hha : has_all_decisions (upsert entry.decisions a (majority_decision ds)) entry.total with
        | error e => rw [hha] at hrun; exact absurd hrun (by simp)
        | ok b =>
          rw [hha] at hrun
          simp only at hrun
          have hlen : (upsert entry.decisions a (majority_decision ds)).length ≤ entry.total := by
            by_contra hgt
            push_neg at hgt
            simp [has_all_decisions, hgt] at hha
          have hOK' := entriesOK_upsert (k := q :: qt)
            (e := ⟨upsert entry.decisions a (majority_decision ds), entry.total⟩) hOK hlen
          by_cases hb : b = true
          · rw [if_pos hb] at hrun
            exact ih _ _ _ hOK' hrun
          · rw [if_neg hb] at hrun
            cases hrun
            exact hOK'

theorem checkAndFold_cases (node : Node) (path : List Nat) (entry : Entry) :
    (entry.decisions.length = entry.total →
        checkAndFold node path entry = process_final_decision node path entry.decisions) ∧
    (entry.decisions.length < entry.total → checkAndFold node path entry = .ok node) ∧
    (entry.total < entry.decisions.length →
        checkAndFold node path entry = .error "Received more decisions than expected.") := by
  unfold checkAndFold has_all_decisions
  refine ⟨fun h => ?_, fun h => ?_, fun h => ?_⟩
  · rw [if_neg (by omega)]
    simp [h]
  · rw [if_neg (by omega)]
    simp [Nat.ne_of_lt h]
  · rw [if_pos h]

theorem storeDecision_eq (node : Node) (key : List Nat) (o d t : Nat) :
    (storeDecision node key o d t).1 =
      { node with
        savedDecisions := upsert node.savedDecisions key (storeDecision node key o d t).2 } := by
  unfold storeDecision
  cases alookup node.savedDecisions key <;> simp

theorem checkAndFold_upsert_preserves {node : Node} {key : List Nat} {e1 : Entry} {node' : Node}
    (hOK : EntriesOK node)
    (hrun : checkAndFold { node with savedDecisions := upsert node.savedDecisions key e1 }
              key e1 = .ok node') :
    EntriesOK node' := by
  unfold checkAndFold at hrun
  cases hha : has_all_decisions e1.decisions e1.total with
  | error e => rw [hha] at hrun; exact absurd hrun (by simp)
  | ok b =>
    rw [hha] at hrun
    simp only at hrun
    have hlen : e1.decisions.length ≤ e1.total := by
      by_contra hgt
      push_neg at hgt
      simp [has_all_decisions, hgt] at hha
    have hOK1 := entriesOK_upsert (k := key) (e := e1) hOK hlen
    by_cases hb : b = true
    · rw [if_pos hb] at hrun
      exact pfd_preserves _ _ _ _ hOK1 hrun
    · rw [if_neg hb] at hrun
      cases hrun
      exact hOK1

theorem received_preserves_aux {node node1 : Node} {e1 : Entry} {key : List Nat}
    {node' : Node}
    (hnode1 : node1 = { node with savedDecisions := upsert node.savedDecisions key e1 })
    (hOK : EntriesOK node)
    (hrun : checkAndFold node1 key e1 = .ok node') : EntriesOK node' := by
  subst hnode1
  exact checkAndFold_upsert_preserves hOK hrun

theorem receiving_preserves {alg : Nat} {node : Node} {msg : InMsg} {node' : Node}
    {out : List OutMsg}
    (hOK : EntriesOK node)
    (h : receiving alg node msg = .ok (node', out)) : EntriesOK node' := by
  unfold receiving at h
  have hOKn : EntriesOK { node with neighbors := learnNeighbor node.neighbors msg.source msg.data.id } := hOK
  set noden := { node with neighbors := learnNeighbor node.neighbors msg.source msg.data.id } with hnd
  by_cases hh : msg.header = "Decision"
  · rw [if_pos hh] at h
    by_cases hm1 : msg.data.m > 1
    · rw [if_pos hm1] at h
      unfold received_more_than_one at h
      dsimp only at h
      rcases hsd : storeDecision noden msg.data.path noden.uniqueValue msg.data.decision msg.data.n
        with ⟨node1, e1⟩
      rw [hsd] at h
      simp only at h
      have hn1 : node1 = { noden with savedDecisions := upsert noden.savedDecisions msg.data.path e1 } := by
        have := storeDecision_eq noden msg.data.path noden.uniqueValue msg.data.decision msg.data.n
        rw [hsd] at this
        exact this
      cases hcf : checkAndFold node1 msg.data.path e1 with
      | error e => rw [hcf] at h; exact absurd h (by simp)
      | ok node2 =>
        rw [hcf] at h
        simp only at h
        cases h
        exact received_preserves_aux hn1 hOKn hcf
    · rw [if_neg hm1] at h
      by_cases hm2 : msg.data.m = 1
      · rw [if_pos hm2] at h
        unfold received_one at h
        dsimp only at h
        rcases hsd : storeDecision noden msg.data.path noden.uniqueValue msg.data.decision msg.data.n
          with ⟨node1, e1⟩
        rw [hsd] at h
        simp only at h
        have hn1 : node1 = { noden with savedDecisions := upsert noden.savedDecisions msg.data.path e1 } := by
          have := storeDecision_eq noden msg.data.path noden.uniqueValue msg.data.decision msg.data.n
          rw [hsd] at this
          exact this
        cases hcf : checkAndFold node1 msg.data.path e1 with
        | error e => rw [hcf] at h; exact absurd h (by simp)
        | ok node2 =>
          rw [hcf] at h
          simp only at h
          cases h
          exact received_preserves_aux hn1 hOKn hcf
      · rw [if_neg hm2] at h
        unfold received_zero at h
        dsimp only at h
        rcases hsd : storeDecision noden msg.data.path msg.data.id msg.data.decision msg.data.n
          with ⟨node1, e1⟩
        rw [hsd] at h
        simp only at h
        have hn1 : node1 = { noden with savedDecisions := upsert noden.savedDecisions msg.data.path e1 } := by
          have := storeDecision_eq noden msg.data.path msg.data.id msg.data.decision msg.data.n
          rw [hsd] at this
          exact this
        cases hcf : checkAndFold node1 msg.data.path e1 with
        | error e => rw [hcf] at h; exact absurd h (by simp)
        | ok node2 =>
          rw [hcf] at h
          simp only at h
          cases h
          exact received_preserves_aux hn1 hOKn hcf
  · rw [if_neg hh] at h
    simp only [Except.ok.injEq, Prod.mk.injEq] at h
    rw [← h.1]
    exact hOKn

/-- C6 (amended): when forwarding a Decision as sub-commander, an honest
(non-TRAITOR) node sends the received decision unchanged to all destination
nodes, while a TRAITOR splits the destination list in half and sends the
received decision to the first half and the flip of `self.decision` — the
algorithm's configured initial-decision parameter, not the received decision —
to the second half. -/
theorem c6_forwarding (algDecision : Nat) (node : Node) (data : MsgData)
    (send_nodes : List Nat) :
    (node.status ≠ Status.TRAITOR →
        send_recursion_start algDecision node data send_nodes =
          [{ header := "Decision", data := data, dests := send_nodes }]) ∧
    (node.status = Status.TRAITOR →
        send_recursion_start algDecision node data send_nodes =
          [{ header := "Decision", data := data,
             dests := send_nodes.take (send_nodes.length / 2) },
           { header := "Decision",
             data := { data with decision := if algDecision = 0 then 1 else 0 },
             dests := send_nodes.drop (send_nodes.length / 2) }]) := by
  constructor
  · intro h
    unfold send_recursion_start
    rw [if_neg (fun hh => h hh.symm)]
  · intro h
    unfold send_recursion_start
    rw [if_pos h.symm]

/-- C6, counterexample to the claim as stated: a traitor that received decision
`1` while the configured parameter `decision` is `0` sends `1` — the received
decision itself, not its flip `0` — to the second half of the destinations. -/

theorem c6_counterexample :
    c6Data.decision = 1 ∧
    (send_recursion_start 0 c6TraitorNode c6Data [7, 8]).map (fun msg => msg.data.decision)
      = [1, 1] ∧
    ¬ ((send_recursion_start 0 c6TraitorNode c6Data [7, 8]).map (fun msg => msg.data.decision)
        = [c6Data.decision, 1 - c6Data.decision]) := by
  decide

theorem c6_forwarding_witness :
    send_recursion_start 0 c6HonestNode c6Data [7, 8] =
      [{ header := "Decision", data := c6Data, dests := [7, 8] }] :=
  (c6_forwarding 0 c6HonestNode c6Data [7, 8]).1 (by decide)

/-- C7: `process_final_decision(path, decisions)` computes
`majority = 1` iff the `1`-votes strictly outnumber the `0`-votes (ties give
`0`); if `len(path) == 1` a TRAITOR makes no state change and a LIEUTENANT moves
to ATTACK when the majority is `1` and RETREAT otherwise; for longer paths it
writes `decisions[path[-1]] = majority` into the entry stored under
`path[:-1]` and recursively folds that entry exactly when it reaches its
`total`. -/
theorem c7_process_final_decision (node : Node) (path : List Nat)
    (ds : List (Nat × Nat)) :
    majority_decision ds =
      (if (ds.map Prod.snd).count 1 > (ds.map Prod.snd).count 0 then 1 else 0) ∧
    (path.length = 1 → node.status = Status.TRAITOR →
        process_final_decision node path ds = .ok node) ∧
    (path.length = 1 → node.status = Status.LIEUTIENANT →
        ∃ node2, process_final_decision node path ds = .ok node2 ∧
          node2.status =
            (if majority_decision ds = 1 then Status.ATTACK else Status.RETREAT)) ∧
    (∀ parentKey father entry, path = parentKey ++ [father] → parentKey ≠ [] →
        alookup node.savedDecisions parentKey = some entry →
        ∀ entry2 node1,
          entry2 = { entry with
                     decisions := upsert entry.decisions father (majority_decision ds) } →
          node1 = { node with
                    savedDecisions := upsert node.savedDecisions parentKey entry2 } →
          (entry2.decisions.length = entry.total →
              process_final_decision node path ds =
                process_final_decision node1 parentKey entry2.decisions) ∧
          (entry2.decisions.length < entry.total →
              process_final_decision node path ds = .ok node1)) := by
  refine ⟨rfl, ?_, ?_, ?_⟩
  · intro hlen hst
    obtain ⟨a, rfl⟩ := List.length_eq_one.mp hlen
    rw [pfd_top, if_pos hst.symm]
  · intro hlen hst
    obtain ⟨a, rfl⟩ := List.length_eq_one.mp hlen
    rw [pfd_top, if_neg (by rw [hst]; intro hh; exact absurd hh (by decide))]
    exact ⟨_, rfl, rfl⟩
  · intro parentKey father entry hpath hpk hl entry2 node1 he2 hn1
    obtain ⟨q, qt, rfl⟩ : ∃ q qt, parentKey = q :: qt := by
      cases parentKey with
      | nil => exact absurd rfl hpk
      | cons q qt => exact ⟨q, qt, rfl⟩
    subst hpath
    rw [pfd_step, hl]
    subst he2
    subst hn1
    constructor
    · intro hcomp
      have h2 : (upsert entry.decisions father (majority_decision ds)).length = entry.total := hcomp
      have hha : has_all_decisions (upsert entry.decisions father (majority_decision ds)) entry.total
          = .ok true := by simp [has_all_decisions, h2]
      simp only
      rw [hha]
      rfl
    · intro hlt
      have h2 : (upsert entry.decisions father (majority_decision ds)).length < entry.total := hlt
      have hha : has_all_decisions (upsert entry.decisions father (majority_decision ds)) entry.total
          = .ok false := by
        unfold has_all_decisions
        rw [if_neg (by omega)]
        simp [Nat.ne_of_lt h2]
      simp only
      rw [hha]
      rfl

/-- C8: in every node-locally reachable state every `saved_decisions` entry
satisfies `|decisions| ≤ total`; `has_all_decisions` raises the fatal
`ValueError` exactly when `|decisions| > total`; and the store-then-check
pattern invokes the fold exactly when `|decisions| == total`. -/
theorem c8_decisions_bound (algDecision : Nat) :
    (∀ node, Reach algDecision node → EntriesOK node) ∧
    (∀ (ds : List (Nat × Nat)) (total : Nat),
        (total < ds.length →
            has_all_decisions ds total = .error "Received more decisions than expected.") ∧
        (ds.length ≤ total → has_all_decisions ds total = .ok (ds.length == total))) ∧
    (∀ node path entry,
        (entry.decisions.length = entry.total →
            checkAndFold node path entry = process_final_decision node path entry.decisions) ∧
        (entry.decisions.length < entry.total → checkAndFold node path entry = .ok node) ∧
        (entry.total < entry.decisions.length →
            checkAndFold node path entry = .error "Received more decisions than expected.")) := by
  refine ⟨?_, ?_, checkAndFold_cases⟩
  · intro node h
    induction h with
    | init status uv m dec neighbors =>
      intro k e hl
      simp [alookup] at hl
    | step hr hrun ih => exact receiving_preserves ih hrun
  · intro ds total
    constructor
    · intro h
      unfold has_all_decisions
      rw [if_pos h]
    · intro h
      unfold has_all_decisions
      rw [if_neg (by omega)]

theorem c8_decisions_bound_witness :
    EntriesOK c8Node ∧
    has_all_decisions [(1, 1), (2, 0)] 1 = .error "Received more decisions than expected." ∧
    checkAndFold c8Node [9] { decisions := [(1, 1)], total := 2 } = .ok c8Node :=
  ⟨(c8_decisions_bound 0).1 c8Node
      (Reach.init Status.LIEUTIENANT 5 1 0 [(10, none)]),
   ((c8_decisions_bound 0).2.1 [(1, 1), (2, 0)] 1).1 (by decide),
   ((c8_decisions_bound 0).2.2 c8Node [9] { decisions := [(1, 1)], total := 2 }).2.1 (by decide)⟩

theorem c7_process_final_decision_witness :
    process_final_decision c7Node [9] [(1, 1), (2, 0), (3, 1)] = .ok c7Node :=
  (c7_process_final_decision c7Node [9] [(1, 1), (2, 0), (3, 1)]).2.1 (by decide) (by decide)

end Byz

namespace B3PC

/-- C3, counterexample to the claim as stated: the coordinator in
`COORDINATOR_ABORTING` accepts an `Aborted` message whose signature fails
verification, marks its sender `aborted`, and counts it toward the `n-1`
aborted quorum — here reaching `DONE` on a forged message. -/
theorem c3_counterexample :
    verify_signature hashId (canonicalStr c3Msg) c3Msg.signature c3Msg.id = false ∧
    (receiving hashId c3Node c3Msg).node.node_status = [(3, "aborted")] ∧
    (receiving hashId c3Node c3Msg).node.status = Status.DONE ∧
    ¬ (receiving hashId c3Node c3Msg).node = c3Node := by
  decide

/-- C3 (amended): for every honest receive path except the coordinator in
`COORDINATOR_ABORTING` (which records `Aborted` without any check), the
signature of a message is verified against the asserted sender id before any
state change, and a message whose signature fails verification causes no state
change — in particular it contributes to no quorum count (`prepare_votes`,
`ack_votes`, and the done counts are part of the unchanged state). -/
theorem c3_invalid_signature_no_state_change (hash : String → String)
    (node : Node) (msg : InMsg)
    (hst : node.status ≠ Status.COORDINATOR_ABORTING)
    (hfa : node.status ≠ Status.FAULTY)
    (hbad : verify_signature hash (canonicalStr msg) msg.signature msg.id = false) :
    (receiving hash node msg).node = node := by
  cases hns : node.status with
  | COORDINATOR_ABORTING => exact absurd hns hst
  | FAULTY => exact absurd hns hfa
  | COORDINATOR => simp [receiving, hns, skip]
  | COORDINATOR_WAITING_PREPARED =>
    simp only [receiving, hns, cwpReceiving]
    by_cases hh : msg.header = "Prepared"
    · simp only [canonicalStr, hh] at hbad
      simp at hbad
      simp [hh, hbad, skip]
    · simp [hh, skip]
  | COORDINATOR_WAITING_ACK =>
    simp only [receiving, hns, cwaReceiving]
    by_cases hh : msg.header = "Ack"
    · simp only [canonicalStr, hh] at hbad
      simp at hbad
      simp [hh, hbad, skip]
    · simp [hh, skip]
  | COORDINATOR_WAITING_DONE =>
    simp only [receiving, hns, cwdReceiving]
    by_cases hh : msg.header = "Done"
    · simp only [canonicalStr, hh] at hbad
      simp at hbad
      simp [hh, hbad, skip]
    · simp [hh, skip]
  | SLEEP =>
    simp only [receiving, hns, sleepReceiving]
    by_cases hh : msg.header = "Prepare"
    · simp only [canonicalStr, hh] at hbad
      simp at hbad
      simp [hh, hbad, skip]
    · simp [hh, skip]
  | WAITING_PRECOMMIT =>
    simp only [receiving, hns, wpcReceiving]
    by_cases hh1 : msg.header = "PreCommit"
    · simp only [canonicalStr, hh1] at hbad
      simp at hbad
      simp [hh1, hbad, skip]
    · by_cases hh2 : msg.header = "Abort"
      · simp only [canonicalStr, hh2] at hbad
        simp [hh1] at hbad
        simp [hh1, hh2, hbad, skip]
      · by_cases hh3 : msg.header = "Prepare"
        · simp [hh1, hh2, hh3, skip]
        · simp [hh1, hh2, hh3, skip]
  | WAITING_COMMIT =>
    simp only [receiving, hns, wcReceiving]
    by_cases hh1 : msg.header = "Commit"
    · simp only [canonicalStr, hh1] at hbad
      simp at hbad
      simp [hh1, hbad, skip]
    · by_cases hh2 : msg.header = "Abort"
      · simp only [canonicalStr, hh2] at hbad
        simp [hh1] at hbad
        simp [hh1, hh2, hbad, skip]
      · by_cases hh3 : msg.header = "PreCommit"
        · simp [hh1, hh2, hh3, skip]
        · simp [hh1, hh2, hh3, skip]
  | DONE =>
    simp only [receiving, hns, doneDefault]
    by_cases hh1 : msg.header = "Commit"
    · simp [hh1, skip]
    · by_cases hh2 : msg.header = "Abort"
      · simp [hh1, hh2, skip]
      · simp [hh1, hh2, skip]

theorem c3_witness : (receiving hashId c3wNode c3wMsg).node = c3wNode :=
  c3_invalid_signature_no_state_change hashId c3wNode c3wMsg (by decide) (by decide)
    (by decide)

theorem key_append (d t : String) : d ++ ":" ++ ("key_" ++ t) = d ++ ":key_" ++ t := by
  have h1 : (":" : String) ++ "key_" = ":key_" := rfl
  rw [String.append_assoc d ":" ("key_" ++ t), ← String.append_assoc ":" "key_" t, h1,
    ← String.append_assoc d ":key_" t]

/-- C4: within the model the round trip holds: a message signed with the key
`"key_" + X` verifies against asserted sender `X` for every hash function, and
fails against any `Y ≠ X` whose reconstructed 16-character prefix differs (the
model's infeasibility-of-forgery assumption for the external SHA-256). -/

theorem c4_sign_verify_roundtrip (hash : String → String) (d : String) (X Y : Nat) :
    (Y = X →
        verify_signature hash d (signWithKey hash ("key_" ++ toString X) d) Y = true) ∧
    (Y ≠ X →
        (hash (d ++ ":key_" ++ toString X)).take 16 ≠
          (hash (d ++ ":key_" ++ toString Y)).take 16 →
        verify_signature hash d (signWithKey hash ("key_" ++ toString X) d) Y = false) := by
  constructor
  · intro hxy
    subst hxy
    simp [verify_signature, signWithKey, key_append]
  · intro hxy hne
    simp only [verify_signature, signWithKey, key_append]
    exact beq_eq_false_iff_ne.mpr hne

theorem c4_sign_verify_roundtrip_witness :
    verify_signature hashId "payload"
      (signWithKey hashId ("key_" ++ toString 1) "payload") 1 = true ∧
    verify_signature hashId "payload"
      (signWithKey hashId ("key_" ++ toString 1) "payload") 2 = false :=
  ⟨(c4_sign_verify_roundtrip hashId "payload" 1 1).1 rfl,
   (c4_sign_verify_roundtrip hashId "payload" 1 2).2 (by decide) (by decide)⟩

theorem c5_cwp_iff (hash : String → String) (node : Node) (msg : InMsg)
    (hst : node.status = Status.COORDINATOR_WAITING_PREPARED) :
    ((receiving hash node msg).node.status = Status.COORDINATOR_WAITING_ACK ∧
       ∃ s, (receiving hash node msg).msgs =
         [{ header := "PreCommit", id := node.uniqueValue, decision := none,
            signature := s, dest := Dest.broadcast }]) ↔
      (msg.header = "Prepared" ∧
       verify_signature hash ("prepared:" ++ toString msg.id ++ ":" ++ toString msg.decision)
         msg.signature msg.id = true ∧
       msg.decision ≠ 0 ∧
       node.n - 1 ≤ ((upsert node.prepare_votes msg.id (msg.decision, msg.signature)).map
           (fun p => p.2.1)).count 1) := by
  simp only [receiving, hst, cwpReceiving]
  by_cases hh : msg.header = "Prepared"
  · simp only [hh, if_true]
    by_cases hv : verify_signature hash
        ("prepared:" ++ toString msg.id ++ ":" ++ toString msg.decision) msg.signature msg.id
    · simp only [hv, Bool.not_true, if_false, if_true]
      by_cases hd : msg.decision = 0
      · simp [hd, send_abort, hv]
      · simp only [hd, if_false]
        by_cases hlen : node.n - 1 ≤ (upsert node.prepare_votes msg.id (msg.decision, msg.signature)).length
        · simp only [ge_iff_le, hlen, if_true]
          by_cases hcnt : node.n - 1 ≤ ((upsert node.prepare_votes msg.id (msg.decision, msg.signature)).map (fun p => p.2.1)).count 1
          · simp [hcnt, hv, hd]
          · simp [hcnt, send_abort, hv, hd]
        · have hcnt : ¬ node.n - 1 ≤ ((upsert node.prepare_votes msg.id (msg.decision, msg.signature)).map (fun p => p.2.1)).count 1 := by
            intro hc
            exact hlen (le_trans hc (by
              calc ((upsert node.prepare_votes msg.id (msg.decision, msg.signature)).map (fun p => p.2.1)).count 1
                  ≤ ((upsert node.prepare_votes msg.id (msg.decision, msg.signature)).map (fun p => p.2.1)).length := List.count_le_length _ _
                _ = (upsert node.prepare_votes msg.id (msg.decision, msg.signature)).length := List.length_map _ _))
          simp [hlen, skip, hcnt, hv, hd]
    · simp only [Bool.not_eq_true] at hv
      simp [hv, skip]
  · simp [hh, skip]

theorem c5_cwa_iff (hash : String → String) (node : Node) (msg : InMsg)
    (hst : node.status = Status.COORDINATOR_WAITING_ACK) :
    ((receiving hash node msg).node.status = Status.COORDINATOR_WAITING_DONE ∧
       ∃ s, (receiving hash node msg).msgs =
         [{ header := "Commit", id := node.uniqueValue, decision := none,
            signature := s, dest := Dest.broadcast }]) ↔
      (msg.header = "Ack" ∧
       verify_signature hash ("ack:" ++ toString msg.id) msg.signature msg.id = true ∧
       node.n - 1 ≤ (upsert node.ack_votes msg.id msg.signature).length) := by
  simp only [receiving, hst, cwaReceiving]
  by_cases hh : msg.header = "Ack"
  · simp only [hh, if_true]
    by_cases hv : verify_signature hash ("ack:" ++ toString msg.id) msg.signature msg.id
    · simp only [hv, Bool.not_true, if_false, if_true]
      by_cases hlen : node.n - 1 ≤ (upsert node.ack_votes msg.id msg.signature).length
      · simp [hlen, hv]
      · simp [hlen, skip, hv]
    · simp only [Bool.not_eq_true] at hv
      simp [hv, skip]
  · simp [hh, skip]

theorem c5_cwp_alarm (hash : String → String) (node : Node) (a : Alarm)
    (hst : node.status = Status.COORDINATOR_WAITING_PREPARED) :
    (alarm hash node a).node.status = Status.COORDINATOR_WAITING_PREPARED := by
  simp only [alarm, hst, cwpAlarm]
  cases a <;> simp [skip, hst]

theorem c5_cwa_alarm (hash : String → String) (node : Node) (a : Alarm)
    (hst : node.status = Status.COORDINATOR_WAITING_ACK) :
    (alarm hash node a).node.status = Status.COORDINATOR_WAITING_ACK ∨
      (alarm hash node a).node.status = Status.COORDINATOR_ABORTING := by
  simp only [alarm, hst, cwaAlarm]
  cases a with
  | Timeout_Ack i =>
    by_cases hc : statusOf node i ≠ "ack"
    · simp [hc, send_abort]
    · simp [hc, skip, hst]
  | Timeout_Prepared => simp [skip, hst]
  | Timeout_Done i => simp [skip, hst]
  | Timeout_Abort i => simp [skip, hst]

theorem c5_prepared_valid (hash : String → String) (node : Node) (msg : InMsg)
    (hst : node.status = Status.COORDINATOR_WAITING_PREPARED)
    (hall : AllValidPrepared hash node) :
    AllValidPrepared hash (receiving hash node msg).node := by
  simp only [receiving, hst, cwpReceiving]
  by_cases hh : msg.header = "Prepared"
  · simp only [hh, if_true]
    by_cases hv : verify_signature hash
        ("prepared:" ++ toString msg.id ++ ":" ++ toString msg.decision) msg.signature msg.id
    · simp only [hv, Bool.not_true, if_false, if_true]
      have hall2 : AllValidPrepared hash
          { node with
            prepare_votes := upsert node.prepare_votes msg.id (msg.decision, msg.signature),
            node_status := upsert node.node_status msg.source "prepared" } := by
        intro id d s hl
        simp only [alookup_upsert] at hl
        by_cases hid : id = msg.id
        · subst hid
          simp at hl
          rw [← hl.1, ← hl.2]
          exact hv
        · simp [hid] at hl
          exact hall id d s hl
      by_cases hd : msg.decision = 0
      · simpa [hd, send_abort] using hall2
      · simp only [hd, if_false]
        by_cases hlen : node.n - 1 ≤ (upsert node.prepare_votes msg.id (msg.decision, msg.signature)).length
        · simp only [ge_iff_le, hlen, if_true]
          by_cases hcnt : node.n - 1 ≤ ((upsert node.prepare_votes msg.id (msg.decision, msg.signature)).map (fun p => p.2.1)).count 1
          · simpa [hcnt] using hall2
          · simpa [hcnt, send_abort] using hall2
        · simpa [hlen, skip] using hall2
    · simp only [Bool.not_eq_true] at hv
      simpa [hv, skip] using hall
  · simpa [hh, skip] using hall

theorem c5_ack_valid (hash : String → String) (node : Node) (msg : InMsg)
    (hst : node.status = Status.COORDINATOR_WAITING_ACK)
    (hall : AllValidAck hash node) :
    AllValidAck hash (receiving hash node msg).node := by
  simp only [receiving, hst, cwaReceiving]
  by_cases hh : msg.header = "Ack"
  · simp only [hh, if_true]
    by_cases hv : verify_signature hash ("ack:" ++ toString msg.id) msg.signature msg.id
    · simp only [hv, Bool.not_true, if_false, if_true]
      have hall2 : AllValidAck hash
          { node with
            ack_votes := upsert node.ack_votes msg.id msg.signature,
            node_status := upsert node.node_status msg.source "ack" } := by
        intro id s hl
        simp only [alookup_upsert] at hl
        by_cases hid : id = msg.id
        · subst hid
          simp at hl
          rw [← hl]
          exact hv
        · simp [hid] at hl
          exact hall id s hl
      by_cases hlen : node.n - 1 ≤ (upsert node.ack_votes msg.id msg.signature).length
      · simpa [hlen] using hall2
      · simpa [hlen, skip] using hall2
    · simp only [Bool.not_eq_true] at hv
      simpa [hv, skip] using hall
  · simpa [hh, skip] using hall

/-- C5: the Byzantine-3PC coordinator broadcasts `PreCommit` and moves to
`COORDINATOR_WAITING_ACK` exactly when, after recording the incoming vote, it
holds at least `n-1` validly-signed `Prepared` votes with decision `1` (an
incoming `0`-vote takes the abort path instead), and broadcasts `Commit` and
moves to `COORDINATOR_WAITING_DONE` exactly when it holds at least `n-1`
validly-signed `Ack` votes; both thresholds are `n-1`, alarms never produce
those transitions, and every stored vote has a verified signature. -/

theorem c5_quorum_thresholds (hash : String → String) (node : Node) (msg : InMsg)
    (a : Alarm) :
    (node.status = Status.COORDINATOR_WAITING_PREPARED →
      (((receiving hash node msg).node.status = Status.COORDINATOR_WAITING_ACK ∧
         ∃ s, (receiving hash node msg).msgs =
           [{ header := "PreCommit", id := node.uniqueValue, decision := none,
              signature := s, dest := Dest.broadcast }]) ↔
       (msg.header = "Prepared" ∧
        verify_signature hash
          ("prepared:" ++ toString msg.id ++ ":" ++ toString msg.decision)
          msg.signature msg.id = true ∧
        msg.decision ≠ 0 ∧
        node.n - 1 ≤ ((upsert node.prepare_votes msg.id (msg.decision, msg.signature)).map
            (fun p => p.2.1)).count 1))) ∧
    (node.status = Status.COORDINATOR_WAITING_ACK →
      (((receiving hash node msg).node.status = Status.COORDINATOR_WAITING_DONE ∧
         ∃ s, (receiving hash node msg).msgs =
           [{ header := "Commit", id := node.uniqueValue, decision := none,
              signature := s, dest := Dest.broadcast }]) ↔
       (msg.header = "Ack" ∧
        verify_signature hash ("ack:" ++ toString msg.id) msg.signature msg.id = true ∧
        node.n - 1 ≤ (upsert node.ack_votes msg.id msg.signature).length))) ∧
    (node.status = Status.COORDINATOR_WAITING_PREPARED →
      (alarm hash node a).node.status = Status.COORDINATOR_WAITING_PREPARED) ∧
    (node.status = Status.COORDINATOR_WAITING_ACK →
      (alarm hash node a).node.status = Status.COORDINATOR_WAITING_ACK ∨
        (alarm hash node a).node.status = Status.COORDINATOR_ABORTING) ∧
    (node.status = Status.COORDINATOR_WAITING_PREPARED → AllValidPrepared hash node →
      AllValidPrepared hash (receiving hash node msg).node) ∧
    (node.status = Status.COORDINATOR_WAITING_ACK → AllValidAck hash node →
      AllValidAck hash (receiving hash node msg).node) :=
  ⟨fun h => c5_cwp_iff hash node msg h,
   fun h => c5_cwa_iff hash node msg h,
   fun h => c5_cwp_alarm hash node a h,
   fun h => c5_cwa_alarm hash node a h,
   fun h => c5_prepared_valid hash node msg h,
   fun h => c5_ack_valid hash node msg h⟩

theorem c5_quorum_thresholds_witness :
    (receiving hashId c5Node c5Msg).node.status = Status.COORDINATOR_WAITING_ACK ∧
    ∃ s, (receiving hashId c5Node c5Msg).msgs =
      [{ header := "PreCommit", id := 1, decision := none,
         signature := s, dest := Dest.broadcast }] :=
  ((c5_quorum_thresholds hashId c5Node c5Msg Alarm.Timeout_Prepared).1 rfl).mpr
    ⟨rfl, by decide, by decide, by decide⟩

end B3PC

end Spec2Proof
namespace Spec2Proof
namespace ThreePC

theorem partReceiving_sends {self : NRef} {st : Status} {m : Msg}
    {st2 : Status} {out : List Msg}
    (h : partReceiving self st m = .ok (st2, out)) :
    ∀ mm ∈ out, mm.src = self ∧
      (mm.header = "Prepared" ∨ mm.header = "Ack" ∨ mm.header = "Done" ∨
        mm.header = "Aborted") ∧
      (mm.header = "Done" → m.header = "Commit") ∧
      (mm.header = "Aborted" → m.header = "Abort") := by
  unfold partReceiving at h
  repeat' split at h
  all_goals
    first
    | (injection h with h
       injection h with h1 h2
       subst h1
       subst h2
       intro mm hmm
       simp at hmm)
    | injection h
  all_goals try (rw [hmm]; simp_all)

theorem coordReceiving_cwp {K : Nat} {c : CoordSt} {m : Msg} {r : CRes}
    (hst : c.status = Status.COORDINATOR_WAITING_PREPARED)
    (h : coordReceiving K c m = .ok r) :
    (r.coord.status = Status.COORDINATOR_WAITING_PREPARED ∧ r.msgs = []) ∨
    (r.coord.status = Status.COORDINATOR_WAITING_ACK ∧
      ∀ mm ∈ r.msgs, mm.src = NRef.coord ∧ mm.header = "PreCommit") ∨
    (r.coord.status = Status.COORDINATOR_ABORTING ∧
      ∀ mm ∈ r.msgs, mm.src = NRef.coord ∧ mm.header = "Abort") := by
  simp only [coordReceiving, hst] at h
  by_cases hh : m.header = "Prepared"
  · simp only [hh, if_true] at h
    by_cases hd : m.decision = 0
    · simp only [hd, if_true] at h
      injection h with h
      subst h
      refine Or.inr (Or.inr ⟨rfl, ?_⟩)
      intro mm hmm
      simp at hmm
      obtain ⟨i, hi, rfl⟩ := hmm
      exact ⟨rfl, rfl⟩
    · simp only [hd, if_false] at h
      by_cases hc : c.count - 1 = 0
      · rw [if_pos hc] at h
        injection h with h
        subst h
        refine Or.inr (Or.inl ⟨rfl, ?_⟩)
        intro mm hmm
        simp at hmm
        obtain ⟨i, hi, rfl⟩ := hmm
        exact ⟨rfl, rfl⟩
      · rw [if_neg hc] at h
        injection h with h
        subst h
        exact Or.inl ⟨rfl, rfl⟩
  · simp only [hh, if_false] at h
    injection h with h
    subst h
    exact Or.inl ⟨hst, rfl⟩

theorem coordReceiving_cwa {K : Nat} {c : CoordSt} {m : Msg} {r : CRes}
    (hst : c.status = Status.COORDINATOR_WAITING_ACK)
    (h : coordReceiving K c m = .ok r) :
    (r.coord.status = Status.COORDINATOR_WAITING_ACK ∧ r.msgs = []) ∨
    (r.coord.status = Status.COORDINATOR_WAITING_DONE ∧
      ∀ mm ∈ r.msgs, mm.src = NRef.coord ∧ mm.header = "Commit") := by
  simp only [coordReceiving, hst] at h
  by_cases hh : m.header = "Ack"
  · simp only [hh, if_true] at h
    by_cases hc : c.count - 1 = 0
    · rw [if_pos hc] at h
      injection h with h
      subst h
      refine Or.inr ⟨rfl, ?_⟩
      intro mm hmm
      simp at hmm
      obtain ⟨i, hi, rfl⟩ := hmm
      exact ⟨rfl, rfl⟩
    · rw [if_neg hc] at h
      injection h with h
      subst h
      exact Or.inl ⟨rfl, rfl⟩
  · simp only [hh, if_false] at h
    injection h with h
    subst h
    exact Or.inl ⟨hst, rfl⟩

theorem coordReceiving_cwd {K : Nat} {c : CoordSt} {m : Msg} {r : CRes}
    (hst : c.status = Status.COORDINATOR_WAITING_DONE)
    (h : coordReceiving K c m = .ok r) :
    ((r.coord.status = Status.COORDINATOR_WAITING_DONE ∨
        r.coord.status = Status.DONE) ∧ r.msgs = []) := by
  simp only [coordReceiving, hst] at h
  by_cases hh : m.header = "Done"
  · simp only [hh, if_true] at h
    by_cases hc : c.count - 1 = 0
    · rw [if_pos hc] at h
      injection h with h
      subst h
      exact ⟨Or.inr rfl, rfl⟩
    · rw [if_neg hc] at h
      injection h with h
      subst h
      exact ⟨Or.inl rfl, rfl⟩
  · simp only [hh, if_false] at h
    injection h with h
    subst h
    exact ⟨Or.inl hst, rfl⟩

theorem coordReceiving_cab {K : Nat} {c : CoordSt} {m : Msg} {r : CRes}
    (hst : c.status = Status.COORDINATOR_ABORTING)
    (h : coordReceiving K c m = .ok r) :
    ((r.coord.status = Status.COORDINATOR_ABORTING ∨
        r.coord.status = Status.DONE) ∧ r.msgs = []) := by
  simp only [coordReceiving, hst] at h
  by_cases hh : m.header = "Aborted"
  · simp only [hh, if_true] at h
    by_cases hc : c.count - 1 = 0
    · rw [if_pos hc] at h
      injection h with h
      subst h
      exact ⟨Or.inr rfl, rfl⟩
    · rw [if_neg hc] at h
      injection h with h
      subst h
      exact ⟨Or.inl rfl, rfl⟩
  · simp only [hh, if_false] at h
    injection h with h
    subst h
    exact ⟨Or.inl hst, rfl⟩

theorem coordReceiving_done {K : Nat} {c : CoordSt} {m : Msg} {r : CRes}
    (hst : c.status = Status.DONE)
    (h : coordReceiving K c m = .ok r) :
    r.coord.status = Status.DONE ∧
      ∀ mm ∈ r.msgs, mm.src = NRef.coord ∧ mm.header ≠ "Commit" ∧
        mm.header ≠ "Abort" := by
  simp only [coordReceiving, hst] at h
  by_cases hh : m.header = "Commit"
  · simp only [hh, if_true] at h
    injection h with h
    subst h
    exact ⟨hst, by intro mm hmm; simp at hmm; rw [hmm]; simp⟩
  · by_cases hh2 : m.header = "Abort"
    · simp only [hh, hh2, if_false, if_true] at h
      injection h with h
      subst h
      exact ⟨hst, by intro mm hmm; simp at hmm; rw [hmm]; simp⟩
    · simp only [hh, hh2, if_false] at h
      injection h

theorem coordReceiving_other {K : Nat} {c : CoordSt} {m : Msg} {r : CRes}
    (hst : c.status = Status.COORDINATOR ∨ c.status = Status.SLEEP ∨
      c.status = Status.WAITING_PRECOMMIT ∨ c.status = Status.WAITING)
    (h : coordReceiving K c m = .ok r) :
    r.coord = c ∧ r.msgs = [] := by
  rcases hst with hst | hst | hst | hst <;>
    · simp only [coordReceiving, hst] at h
      injection h with h
      subst h
      exact ⟨rfl, rfl⟩

end ThreePC
end Spec2Proof
namespace Spec2Proof
namespace ThreePC

theorem coordAlarm_cases (K : Nat) (c : CoordSt) (a : Alarm) :
    ((coordAlarm K c a).coord.status = c.status ∧
      ∀ mm ∈ (coordAlarm K c a).msgs,
        mm.src = NRef.coord ∧ mm.header ≠ "Commit" ∧ mm.header ≠ "Abort") ∨
    (c.status = Status.COORDINATOR_WAITING_ACK ∧
      (coordAlarm K c a).coord.status = Status.COORDINATOR_ABORTING ∧
      ∀ mm ∈ (coordAlarm K c a).msgs, mm.src = NRef.coord ∧ mm.header = "Abort") ∨
    (c.status = Status.COORDINATOR_WAITING_DONE ∧
      (coordAlarm K c a).coord.status = c.status ∧
      ∀ mm ∈ (coordAlarm K c a).msgs, mm.src = NRef.coord ∧ mm.header = "Commit") ∨
    (c.status = Status.COORDINATOR_ABORTING ∧
      (coordAlarm K c a).coord.status = c.status ∧
      ∀ mm ∈ (coordAlarm K c a).msgs, mm.src = NRef.coord ∧ mm.header = "Abort") := by
  cases hst : c.status <;> simp only [coordAlarm, hst]
  case COORDINATOR_WAITING_PREPARED =>
    cases a
    case Timeout_Prepared =>
      dsimp only
      refine Or.inl ⟨hst, ?_⟩
      intro mm hmm
      simp at hmm
      obtain ⟨x, y, hxy, rfl⟩ := hmm
      refine ⟨rfl, by simp, by simp⟩
    all_goals exact Or.inl ⟨by first | exact hst | trivial, by intro mm hmm; first | simp at hmm | (dsimp only at hmm; simp at hmm)⟩
  case COORDINATOR_WAITING_ACK =>
    cases a
    case Timeout_Ack i =>
      dsimp only
      by_cases hc : (alookup c.node_status i).getD "" ≠ "ack"
      · rw [if_pos hc]
        refine Or.inr (Or.inl ⟨trivial, rfl, ?_⟩)
        intro mm hmm
        simp at hmm
        obtain ⟨j, hj, rfl⟩ := hmm
        exact ⟨rfl, rfl⟩
      · rw [if_neg hc]
        exact Or.inl ⟨by first | exact hst | trivial, by intro mm hmm; first | simp at hmm | (dsimp only at hmm; simp at hmm)⟩
    all_goals exact Or.inl ⟨by first | exact hst | trivial, by intro mm hmm; first | simp at hmm | (dsimp only at hmm; simp at hmm)⟩
  case COORDINATOR_WAITING_DONE =>
    cases a
    case Timeout_Done i =>
      dsimp only
      by_cases hc : (alookup c.node_status i).getD "" ≠ "done"
      · rw [if_pos hc]
        refine Or.inr (Or.inr (Or.inl ⟨trivial, hst, ?_⟩))
        intro mm hmm
        simp at hmm
        rw [hmm]
        exact ⟨rfl, rfl⟩
      · rw [if_neg hc]
        exact Or.inl ⟨by first | exact hst | trivial, by intro mm hmm; first | simp at hmm | (dsimp only at hmm; simp at hmm)⟩
    all_goals exact Or.inl ⟨by first | exact hst | trivial, by intro mm hmm; first | simp at hmm | (dsimp only at hmm; simp at hmm)⟩
  case COORDINATOR_ABORTING =>
    cases a
    case Timeout_Abort i =>
      dsimp only
      by_cases hc : (alookup c.node_status i).getD "" ≠ "aborted"
      · rw [if_pos hc]
        refine Or.inr (Or.inr (Or.inr ⟨trivial, hst, ?_⟩))
        intro mm hmm
        simp at hmm
        rw [hmm]
        exact ⟨rfl, rfl⟩
      · rw [if_neg hc]
        exact Or.inl ⟨by first | exact hst | trivial, by intro mm hmm; first | simp at hmm | (dsimp only at hmm; simp at hmm)⟩
    all_goals exact Or.inl ⟨by first | exact hst | trivial, by intro mm hmm; first | simp at hmm | (dsimp only at hmm; simp at hmm)⟩
  all_goals exact Or.inl ⟨by first | exact hst | trivial, by intro mm hmm; first | simp at hmm | (dsimp only at hmm; simp at hmm)⟩

theorem coordReceiving_cases {K : Nat} {c : CoordSt} {m : Msg} {r : CRes}
    (h : coordReceiving K c m = .ok r) :
    (r.coord.status = c.status ∧
      ∀ mm ∈ r.msgs, mm.src = NRef.coord ∧ mm.header ≠ "Commit" ∧ mm.header ≠ "Abort") ∨
    (c.status = Status.COORDINATOR_WAITING_PREPARED ∧
      r.coord.status = Status.COORDINATOR_WAITING_ACK ∧
      ∀ mm ∈ r.msgs, mm.src = NRef.coord ∧ mm.header ≠ "Commit" ∧ mm.header ≠ "Abort") ∨
    (c.status = Status.COORDINATOR_WAITING_PREPARED ∧
      r.coord.status = Status.COORDINATOR_ABORTING ∧
      ∀ mm ∈ r.msgs, mm.src = NRef.coord ∧ mm.header = "Abort") ∨
    (c.status = Status.COORDINATOR_WAITING_ACK ∧
      r.coord.status = Status.COORDINATOR_WAITING_DONE ∧
      ∀ mm ∈ r.msgs, mm.src = NRef.coord ∧ mm.header = "Commit") ∨
    (c.status = Status.COORDINATOR_WAITING_DONE ∧ r.coord.status = Status.DONE ∧
      r.msgs = []) ∨
    (c.status = Status.COORDINATOR_ABORTING ∧ r.coord.status = Status.DONE ∧
      r.msgs = []) := by
  cases hst : c.status with
  | COORDINATOR_WAITING_PREPARED =>
    rcases coordReceiving_cwp hst h with ⟨h1, h2⟩ | ⟨h1, h2⟩ | ⟨h1, h2⟩
    · exact Or.inl ⟨h1, by rw [h2]; intro mm hmm; simp at hmm⟩
    · refine Or.inr (Or.inl ⟨rfl, h1, ?_⟩)
      intro mm hmm
      obtain ⟨hsrc, hhdr⟩ := h2 mm hmm
      exact ⟨hsrc, by rw [hhdr]; decide, by rw [hhdr]; decide⟩
    · exact Or.inr (Or.inr (Or.inl ⟨rfl, h1, h2⟩))
  | COORDINATOR_WAITING_ACK =>
    rcases coordReceiving_cwa hst h with ⟨h1, h2⟩ | ⟨h1, h2⟩
    · exact Or.inl ⟨h1, by rw [h2]; intro mm hmm; simp at hmm⟩
    · exact Or.inr (Or.inr (Or.inr (Or.inl ⟨rfl, h1, h2⟩)))
  | COORDINATOR_WAITING_DONE =>
    rcases coordReceiving_cwd hst h with ⟨h1 | h1, h2⟩
    · exact Or.inl ⟨h1, by rw [h2]; intro mm hmm; simp at hmm⟩
    · exact Or.inr (Or.inr (Or.inr (Or.inr (Or.inl ⟨rfl, h1, h2⟩))))
  | COORDINATOR_ABORTING =>
    rcases coordReceiving_cab hst h with ⟨h1 | h1, h2⟩
    · exact Or.inl ⟨h1, by rw [h2]; intro mm hmm; simp at hmm⟩
    · exact Or.inr (Or.inr (Or.inr (Or.inr (Or.inr ⟨rfl, h1, h2⟩))))
  | DONE =>
    obtain ⟨h1, h2⟩ := coordReceiving_done hst h
    exact Or.inl ⟨h1, h2⟩
  | COORDINATOR =>
    obtain ⟨h1, h2⟩ := coordReceiving_other (Or.inl hst) h
    exact Or.inl ⟨by rw [h1]; exact hst, by rw [h2]; intro mm hmm; simp at hmm⟩
  | SLEEP =>
    obtain ⟨h1, h2⟩ := coordReceiving_other (Or.inr (Or.inl hst)) h
    exact Or.inl ⟨by rw [h1]; exact hst, by rw [h2]; intro mm hmm; simp at hmm⟩
  | WAITING_PRECOMMIT =>
    obtain ⟨h1, h2⟩ := coordReceiving_other (Or.inr (Or.inr (Or.inl hst))) h
    exact Or.inl ⟨by rw [h1]; exact hst, by rw [h2]; intro mm hmm; simp at hmm⟩
  | WAITING =>
    obtain ⟨h1, h2⟩ := coordReceiving_other (Or.inr (Or.inr (Or.inr hst))) h
    exact Or.inl ⟨by rw [h1]; exact hst, by rw [h2]; intro mm hmm; simp at hmm⟩

end ThreePC
end Spec2Proof
namespace Spec2Proof
namespace ThreePC

theorem mem_of_mem_eraseIdx {α : Type} {l : List α} {i : Nat} {x : α}
    (h : x ∈ l.eraseIdx i) : x ∈ l := by
  rw [List.eraseIdx_eq_take_drop_succ] at h
  rcases List.mem_append.mp h with h | h
  · exact List.take_subset _ _ h
  · exact List.drop_subset _ _ h

theorem sentHdr_append {l out : List Msg} {h : String} :
    SentHdr (l ++ out) h ↔ SentHdr l h ∨ ∃ m ∈ out, m.header = h := by
  simp only [SentHdr, List.mem_append]
  constructor
  · rintro ⟨m, hm | hm, hh⟩
    · exact Or.inl ⟨m, hm, hh⟩
    · exact Or.inr ⟨m, hm, hh⟩
  · rintro (⟨m, hm, hh⟩ | ⟨m, hm, hh⟩)
    · exact ⟨m, Or.inl hm, hh⟩
    · exact ⟨m, Or.inr hm, hh⟩

theorem sentHdr_mono {l out : List Msg} {h : String} (hs : SentHdr l h) :
    SentHdr (l ++ out) h :=
  sentHdr_append.mpr (Or.inl hs)

theorem sentHdr_append_no {l out : List Msg} {h : String}
    (hno : ∀ m ∈ out, m.header ≠ h) :
    SentHdr (l ++ out) h ↔ SentHdr l h := by
  rw [sentHdr_append]
  constructor
  · rintro (hs | ⟨m, hm, hh⟩)
    · exact hs
    · exact absurd hh (hno m hm)
  · exact Or.inl

theorem sentPartHdr_append {l out : List Msg} {h : String} :
    SentPartHdr (l ++ out) h ↔
      SentPartHdr l h ∨ ∃ m i, m ∈ out ∧ m.src = NRef.part i ∧ m.header = h := by
  simp only [SentPartHdr, List.mem_append]
  constructor
  · rintro ⟨m, i, hm | hm, hs, hh⟩
    · exact Or.inl ⟨m, i, hm, hs, hh⟩
    · exact Or.inr ⟨m, i, hm, hs, hh⟩
  · rintro (⟨m, i, hm, hs, hh⟩ | ⟨m, i, hm, hs, hh⟩)
    · exact ⟨m, i, Or.inl hm, hs, hh⟩
    · exact ⟨m, i, Or.inr hm, hs, hh⟩

theorem sentPartHdr_append_coord {l out : List Msg} {h : String}
    (hsrc : ∀ m ∈ out, m.src = NRef.coord) :
    SentPartHdr (l ++ out) h ↔ SentPartHdr l h := by
  rw [sentPartHdr_append]
  constructor
  · rintro (hs | ⟨m, i, hm, hs, hh⟩)
    · exact hs
    · rw [hsrc m hm] at hs
      exact absurd hs (by simp)
  · exact Or.inl

/-- The 3PC global safety invariant, by induction over reachability. -/
theorem threepc_safety {K : Nat} {s : GState} (h : Reach K s) :
    (∀ m ∈ s.flight, m ∈ s.log) ∧
    (SentPartHdr s.log "Done" → SentHdr s.log "Commit") ∧
    (SentPartHdr s.log "Aborted" → SentHdr s.log "Abort") ∧
    ((s.coord.status = Status.COORDINATOR ∨
      s.coord.status = Status.COORDINATOR_WAITING_PREPARED ∨
      s.coord.status = Status.COORDINATOR_WAITING_ACK) →
        ¬ SentHdr s.log "Commit" ∧ ¬ SentHdr s.log "Abort") ∧
    (s.coord.status = Status.COORDINATOR_WAITING_DONE → ¬ SentHdr s.log "Abort") ∧
    (s.coord.status = Status.COORDINATOR_ABORTING → ¬ SentHdr s.log "Commit") ∧
    ¬ (SentHdr s.log "Commit" ∧ SentHdr s.log "Abort") := by
  induction h with
  | init =>
    refine ⟨?_, ?_, ?_, ?_, ?_, ?_, ?_⟩ <;>
      simp [initState, SentHdr, SentPartHdr]
  | @tail s s2 hr hstep ih =>
    obtain ⟨ih1, ih2, ih3, ih4, ih5, ih6, ih7⟩ := ih
    cases hstep with
    | spont hc =>
      have hout : ∀ mm ∈ (spontaneously K s.coord).msgs,
          mm.src = NRef.coord ∧ mm.header ≠ "Commit" ∧ mm.header ≠ "Abort" := by
        intro mm hmm
        simp [spontaneously] at hmm
        obtain ⟨i, hi, rfl⟩ := hmm
        exact ⟨rfl, by simp, by simp⟩
      have hnoC := sentHdr_append_no (l := s.log) (fun m hm => (hout m hm).2.1)
      have hnoA := sentHdr_append_no (l := s.log) (fun m hm => (hout m hm).2.2)
      have hnoP := sentPartHdr_append_coord (l := s.log) (h := "Done")
        (fun m hm => (hout m hm).1)
      have hnoP2 := sentPartHdr_append_coord (l := s.log) (h := "Aborted")
        (fun m hm => (hout m hm).1)
      refine ⟨?_, ?_, ?_, ?_, ?_, ?_, ?_⟩
      · intro m hm
        rcases List.mem_append.mp hm with hm | hm
        · exact List.mem_append.mpr (Or.inl (ih1 m hm))
        · exact List.mem_append.mpr (Or.inr hm)
      · intro hs
        exact sentHdr_mono (ih2 (hnoP.mp hs))
      · intro hs
        exact sentHdr_mono (ih3 (hnoP2.mp hs))
      · intro _
        have := ih4 (Or.inl hc)
        exact ⟨fun hx => this.1 (hnoC.mp hx), fun hx => this.2 (hnoA.mp hx)⟩
      · intro hx
        simp [spontaneously] at hx
      · intro hx
        simp [spontaneously] at hx
      · rintro ⟨hC, hA⟩
        exact ih7 ⟨hnoC.mp hC, hnoA.mp hA⟩
    | deliverCoord idx m0 r h1 h2 h3 =>
      rcases coordReceiving_cases h3 with
        ⟨hA1, hA2⟩ | ⟨hB0, hB1, hB2⟩ | ⟨hC0, hC1, hC2⟩ | ⟨hD0, hD1, hD2⟩ |
        ⟨hE0, hE1, hE2⟩ | ⟨hF0, hF1, hF2⟩
      -- (A) status unchanged, no Commit/Abort sent
      · have hnoC := sentHdr_append_no (l := s.log) (fun m hm => (hA2 m hm).2.1)
        have hnoA := sentHdr_append_no (l := s.log) (fun m hm => (hA2 m hm).2.2)
        have hnoP := sentPartHdr_append_coord (l := s.log) (h := "Done")
          (fun m hm => (hA2 m hm).1)
        have hnoP2 := sentPartHdr_append_coord (l := s.log) (h := "Aborted")
          (fun m hm => (hA2 m hm).1)
        refine ⟨?_, ?_, ?_, ?_, ?_, ?_, ?_⟩
        · intro m hm
          rcases List.mem_append.mp hm with hm | hm
          · exact List.mem_append.mpr (Or.inl (ih1 m (mem_of_mem_eraseIdx hm)))
          · exact List.mem_append.mpr (Or.inr hm)
        · intro hs
          exact sentHdr_mono (ih2 (hnoP.mp hs))
        · intro hs
          exact sentHdr_mono (ih3 (hnoP2.mp hs))
        · intro hx
          rw [hA1] at hx
          have := ih4 hx
          exact ⟨fun hy => this.1 (hnoC.mp hy), fun hy => this.2 (hnoA.mp hy)⟩
        · intro hx
          rw [hA1] at hx
          exact fun hy => ih5 hx (hnoA.mp hy)
        · intro hx
          rw [hA1] at hx
          exact fun hy => ih6 hx (hnoC.mp hy)
        · rintro ⟨hC, hA⟩
          exact ih7 ⟨hnoC.mp hC, hnoA.mp hA⟩
      -- (B) CWP → CWA, only PreCommit sent
      · have hnoC := sentHdr_append_no (l := s.log) (fun m hm => (hB2 m hm).2.1)
        have hnoA := sentHdr_append_no (l := s.log) (fun m hm => (hB2 m hm).2.2)
        have hnoP := sentPartHdr_append_coord (l := s.log) (h := "Done")
          (fun m hm => (hB2 m hm).1)
        have hnoP2 := sentPartHdr_append_coord (l := s.log) (h := "Aborted")
          (fun m hm => (hB2 m hm).1)
        refine ⟨?_, ?_, ?_, ?_, ?_, ?_, ?_⟩
        · intro m hm
          rcases List.mem_append.mp hm with hm | hm
          · exact List.mem_append.mpr (Or.inl (ih1 m (mem_of_mem_eraseIdx hm)))
          · exact List.mem_append.mpr (Or.inr hm)
        · intro hs
          exact sentHdr_mono (ih2 (hnoP.mp hs))
        · intro hs
          exact sentHdr_mono (ih3 (hnoP2.mp hs))
        · intro _
          have := ih4 (Or.inr (Or.inl hB0))
          exact ⟨fun hy => this.1 (hnoC.mp hy), fun hy => this.2 (hnoA.mp hy)⟩
        · intro hx
          rw [hB1] at hx
          simp at hx
        · intro hx
          rw [hB1] at hx
          simp at hx
        · rintro ⟨hC, hA⟩
          exact ih7 ⟨hnoC.mp hC, hnoA.mp hA⟩
      -- (C) CWP → ABORTING, Abort broadcast
      · have hnoC := sentHdr_append_no (l := s.log) (h := "Commit")
          (fun m hm => by rw [(hC2 m hm).2]; simp)
        have hnoP := sentPartHdr_append_coord (l := s.log) (h := "Done")
          (fun m hm => (hC2 m hm).1)
        have hnoP2 := sentPartHdr_append_coord (l := s.log) (h := "Aborted")
          (fun m hm => (hC2 m hm).1)
        have hCommitFalse : ¬ SentHdr (s.log ++ r.msgs) "Commit" := by
          intro hy
          exact (ih4 (Or.inr (Or.inl hC0))).1 (hnoC.mp hy)
        refine ⟨?_, ?_, ?_, ?_, ?_, ?_, ?_⟩
        · intro m hm
          rcases List.mem_append.mp hm with hm | hm
          · exact List.mem_append.mpr (Or.inl (ih1 m (mem_of_mem_eraseIdx hm)))
          · exact List.mem_append.mpr (Or.inr hm)
        · intro hs
          exact sentHdr_mono (ih2 (hnoP.mp hs))
        · intro hs
          exact sentHdr_mono (ih3 (hnoP2.mp hs))
        · intro hx
          rw [hC1] at hx
          rcases hx with hx | hx | hx <;> simp at hx
        · intro hx
          rw [hC1] at hx
          simp at hx
        · intro _
          exact hCommitFalse
        · rintro ⟨hC, _⟩
          exact hCommitFalse hC
      -- (D) CWA → CWD, Commit broadcast
      · have hnoA := sentHdr_append_no (l := s.log) (h := "Abort")
          (fun m hm => by rw [(hD2 m hm).2]; simp)
        have hnoP := sentPartHdr_append_coord (l := s.log) (h := "Done")
          (fun m hm => (hD2 m hm).1)
        have hnoP2 := sentPartHdr_append_coord (l := s.log) (h := "Aborted")
          (fun m hm => (hD2 m hm).1)
        have hAbortFalse : ¬ SentHdr (s.log ++ r.msgs) "Abort" := by
          intro hy
          exact (ih4 (Or.inr (Or.inr hD0))).2 (hnoA.mp hy)
        refine ⟨?_, ?_, ?_, ?_, ?_, ?_, ?_⟩
        · intro m hm
          rcases List.mem_append.mp hm with hm | hm
          · exact List.mem_append.mpr (Or.inl (ih1 m (mem_of_mem_eraseIdx hm)))
          · exact List.mem_append.mpr (Or.inr hm)
        · intro hs
          exact sentHdr_mono (ih2 (hnoP.mp hs))
        · intro hs
          exact sentHdr_mono (ih3 (hnoP2.mp hs))
        · intro hx
          rw [hD1] at hx
          rcases hx with hx | hx | hx <;> simp at hx
        · intro _
          exact hAbortFalse
        · intro hx
          rw [hD1] at hx
          simp at hx
        · rintro ⟨_, hA⟩
          exact hAbortFalse hA
      -- (E) CWD → DONE, nothing sent
      · rw [hE2]
        simp only [List.append_nil]
        refine ⟨?_, ih2, ih3, ?_, ?_, ?_, ih7⟩
        · intro m hm
          exact ih1 m (mem_of_mem_eraseIdx hm)
        · intro hx
          rw [hE1] at hx
          rcases hx with hx | hx | hx <;> simp at hx
        · intro hx
          rw [hE1] at hx
          simp at hx
        · intro hx
          rw [hE1] at hx
          simp at hx
      -- (F) ABORTING → DONE, nothing sent
      · rw [hF2]
        simp only [List.append_nil]
        refine ⟨?_, ih2, ih3, ?_, ?_, ?_, ih7⟩
        · intro m hm
          exact ih1 m (mem_of_mem_eraseIdx hm)
        · intro hx
          rw [hF1] at hx
          rcases hx with hx | hx | hx <;> simp at hx
        · intro hx
          rw [hF1] at hx
          simp at hx
        · intro hx
          rw [hF1] at hx
          simp at hx
    | deliverPart idx m0 i pst st2 out h1 h2 h3 h4 =>
      have hout := partReceiving_sends h4
      have hnoC := sentHdr_append_no (l := s.log) (h := "Commit")
        (fun m hm => by
          rcases (hout m hm).2.1 with hh | hh | hh | hh <;> rw [hh] <;> simp)
      have hnoA := sentHdr_append_no (l := s.log) (h := "Abort")
        (fun m hm => by
          rcases (hout m hm).2.1 with hh | hh | hh | hh <;> rw [hh] <;> simp)
      have hm0log : m0 ∈ s.log := ih1 m0 (List.get?_mem h1)
      refine ⟨?_, ?_, ?_, ?_, ?_, ?_, ?_⟩
      · intro m hm
        rcases List.mem_append.mp hm with hm | hm
        · exact List.mem_append.mpr (Or.inl (ih1 m (mem_of_mem_eraseIdx hm)))
        · exact List.mem_append.mpr (Or.inr hm)
      · intro hs
        rcases sentPartHdr_append.mp hs with hs | ⟨m, j, hm, _, hh⟩
        · exact sentHdr_mono (ih2 hs)
        · have := (hout m hm).2.2.1 hh
          exact sentHdr_mono ⟨m0, hm0log, this⟩
      · intro hs
        rcases sentPartHdr_append.mp hs with hs | ⟨m, j, hm, _, hh⟩
        · exact sentHdr_mono (ih3 hs)
        · have := (hout m hm).2.2.2 hh
          exact sentHdr_mono ⟨m0, hm0log, this⟩
      · intro hx
        have := ih4 hx
        exact ⟨fun hy => this.1 (hnoC.mp hy), fun hy => this.2 (hnoA.mp hy)⟩
      · intro hx
        exact fun hy => ih5 hx (hnoA.mp hy)
      · intro hx
        exact fun hy => ih6 hx (hnoC.mp hy)
      · rintro ⟨hC, hA⟩
        exact ih7 ⟨hnoC.mp hC, hnoA.mp hA⟩
    | drop idx m0 h1 =>
      refine ⟨?_, ih2, ih3, ih4, ih5, ih6, ih7⟩
      intro m hm
      exact ih1 m (mem_of_mem_eraseIdx hm)
    | fire idx a h1 =>
      rcases coordAlarm_cases K s.coord a with
        ⟨hA1, hA2⟩ | ⟨hB0, hB1, hB2⟩ | ⟨hC0, hC1, hC2⟩ | ⟨hD0, hD1, hD2⟩
      -- (A) status unchanged, no Commit/Abort sent
      · have hnoC := sentHdr_append_no (l := s.log) (fun m hm => (hA2 m hm).2.1)
        have hnoA := sentHdr_append_no (l := s.log) (fun m hm => (hA2 m hm).2.2)
        have hnoP := sentPartHdr_append_coord (l := s.log) (h := "Done")
          (fun m hm => (hA2 m hm).1)
        have hnoP2 := sentPartHdr_append_coord (l := s.log) (h := "Aborted")
          (fun m hm => (hA2 m hm).1)
        refine ⟨?_, ?_, ?_, ?_, ?_, ?_, ?_⟩
        · intro m hm
          rcases List.mem_append.mp hm with hm | hm
          · exact List.mem_append.mpr (Or.inl (ih1 m hm))
          · exact List.mem_append.mpr (Or.inr hm)
        · intro hs
          exact sentHdr_mono (ih2 (hnoP.mp hs))
        · intro hs
          exact sentHdr_mono (ih3 (hnoP2.mp hs))
        · intro hx
          rw [hA1] at hx
          have := ih4 hx
          exact ⟨fun hy => this.1 (hnoC.mp hy), fun hy => this.2 (hnoA.mp hy)⟩
        · intro hx
          rw [hA1] at hx
          exact fun hy => ih5 hx (hnoA.mp hy)
        · intro hx
          rw [hA1] at hx
          exact fun hy => ih6 hx (hnoC.mp hy)
        · rintro ⟨hC, hA⟩
          exact ih7 ⟨hnoC.mp hC, hnoA.mp hA⟩
      -- (B) CWA → ABORTING on Timeout_Ack, Abort broadcast
      · have hnoC := sentHdr_append_no (l := s.log) (h := "Commit")
          (fun m hm => by rw [(hB2 m hm).2]; simp)
        have hnoP := sentPartHdr_append_coord (l := s.log) (h := "Done")
          (fun m hm => (hB2 m hm).1)
        have hnoP2 := sentPartHdr_append_coord (l := s.log) (h := "Aborted")
          (fun m hm => (hB2 m hm).1)
        have hCommitFalse : ¬ SentHdr (s.log ++ (coordAlarm K s.coord a).msgs) "Commit" := by
          intro hy
          exact (ih4 (Or.inr (Or.inr hB0))).1 (hnoC.mp hy)
        refine ⟨?_, ?_, ?_, ?_, ?_, ?_, ?_⟩
        · intro m hm
          rcases List.mem_append.mp hm with hm | hm
          · exact List.mem_append.mpr (Or.inl (ih1 m hm))
          · exact List.mem_append.mpr (Or.inr hm)
        · intro hs
          exact sentHdr_mono (ih2 (hnoP.mp hs))
        · intro hs
          exact sentHdr_mono (ih3 (hnoP2.mp hs))
        · intro hx
          rw [hB1] at hx
          rcases hx with hx | hx | hx <;> simp at hx
        · intro hx
          rw [hB1] at hx
          simp at hx
        · intro _
          exact hCommitFalse
        · rintro ⟨hC, _⟩
          exact hCommitFalse hC
      -- (C) CWD resend Commit
      · have hnoA := sentHdr_append_no (l := s.log) (h := "Abort")
          (fun m hm => by rw [(hC2 m hm).2]; simp)
        have hnoP := sentPartHdr_append_coord (l := s.log) (h := "Done")
          (fun m hm => (hC2 m hm).1)
        have hnoP2 := sentPartHdr_append_coord (l := s.log) (h := "Aborted")
          (fun m hm => (hC2 m hm).1)
        have hAbortFalse : ¬ SentHdr (s.log ++ (coordAlarm K s.coord a).msgs) "Abort" := by
          intro hy
          exact ih5 hC0 (hnoA.mp hy)
        refine ⟨?_, ?_, ?_, ?_, ?_, ?_, ?_⟩
        · intro m hm
          rcases List.mem_append.mp hm with hm | hm
          · exact List.mem_append.mpr (Or.inl (ih1 m hm))
          · exact List.mem_append.mpr (Or.inr hm)
        · intro hs
          exact sentHdr_mono (ih2 (hnoP.mp hs))
        · intro hs
          exact sentHdr_mono (ih3 (hnoP2.mp hs))
        · intro hx
          rw [hC1, hC0] at hx
          rcases hx with hx | hx | hx <;> simp at hx
        · intro _
          exact hAbortFalse
        · intro hx
          rw [hC1, hC0] at hx
          simp at hx
        · rintro ⟨_, hA⟩
          exact hAbortFalse hA
      -- (D) ABORTING resend Abort
      · have hnoC := sentHdr_append_no (l := s.log) (h := "Commit")
          (fun m hm => by rw [(hD2 m hm).2]; simp)
        have hnoP := sentPartHdr_append_coord (l := s.log) (h := "Done")
          (fun m hm => (hD2 m hm).1)
        have hnoP2 := sentPartHdr_append_coord (l := s.log) (h := "Aborted")
          (fun m hm => (hD2 m hm).1)
        have hCommitFalse : ¬ SentHdr (s.log ++ (coordAlarm K s.coord a).msgs) "Commit" := by
          intro hy
          exact ih6 hD0 (hnoC.mp hy)
        refine ⟨?_, ?_, ?_, ?_, ?_, ?_, ?_⟩
        · intro m hm
          rcases List.mem_append.mp hm with hm | hm
          · exact List.mem_append.mpr (Or.inl (ih1 m hm))
          · exact List.mem_append.mpr (Or.inr hm)
        · intro hs
          exact sentHdr_mono (ih2 (hnoP.mp hs))
        · intro hs
          exact sentHdr_mono (ih3 (hnoP2.mp hs))
        · intro hx
          rw [hD1, hD0] at hx
          rcases hx with hx | hx | hx <;> simp at hx
        · intro hx
          rw [hD1, hD0] at hx
          simp at hx
        · intro _
          exact hCommitFalse
        · rintro ⟨hC, _⟩
          exact hCommitFalse hC

end ThreePC
end Spec2Proof
namespace Spec2Proof
namespace TwoPC

/-- C10: in `COORDINATOR_WAITING_ACK` every received `Ack` decrements `count`
and marks its source `'ack'` with no check that the source was already marked
(the handler moves to `DONE` as soon as the decremented count hits zero); and
there is a reachable 2-participant run — original `Ack`, `Timeout_Ack`
retransmission of `Commit` to the `DONE` participant, duplicate `Ack` — in
which the coordinator reaches `DONE` while participant 1 is still marked
`'prepared'` and never sent an `Ack`. -/
theorem c10_ack_theorem :
    (∀ (K : Nat) (c : CoordSt) (m : Msg),
      c.status = Status.COORDINATOR_WAITING_ACK → m.header = "Ack" →
      ∃ r, coordReceiving K c m = .ok r ∧
        r.coord.count = c.count - 1 ∧
        alookup r.coord.node_status (srcId m) = some "ack" ∧
        (c.count - 1 = 0 → r.coord.status = Status.DONE)) ∧
    (∃ s, Reach 2 s ∧
      s.coord.status = Status.DONE ∧
      alookup s.coord.node_status 1 = some "prepared" ∧
      ∀ m ∈ s.log, m.src = NRef.part 1 → ¬ m.header = "Ack") := by
  constructor
  · intro K c m hst hh
    simp only [coordReceiving, hst, hh, if_true]
    by_cases hz : c.count - 1 = 0
    · refine ⟨_, by rw [if_pos hz], ?_, ?_, fun _ => rfl⟩
      · simp
      · simp [alookup_upsert]
    · refine ⟨_, by rw [if_neg hz], ?_, ?_, fun hzz => absurd hzz hz⟩
      · simp
      · simp [alookup_upsert]
  · refine ⟨_, Reach.tail (Reach.tail (Reach.tail (Reach.tail (Reach.tail (Reach.tail
      (Reach.tail (Reach.tail (Reach.tail (Reach.tail Reach.init
      (Step.spont _ rfl))
      (Step.deliverPart _ 0 _ 0 _ _ _ rfl rfl rfl rfl))
      (Step.deliverPart _ 0 _ 1 _ _ _ rfl rfl rfl rfl))
      (Step.deliverCoord _ 0 _ _ rfl rfl rfl))
      (Step.deliverCoord _ 0 _ _ rfl rfl rfl))
      (Step.deliverPart _ 0 _ 0 _ _ _ rfl rfl rfl rfl))
      (Step.fire _ 1 _ _ rfl rfl))
      (Step.deliverPart _ 2 _ 0 _ _ _ rfl rfl rfl rfl))
      (Step.deliverCoord _ 1 _ _ rfl rfl rfl))
      (Step.deliverCoord _ 1 _ _ rfl rfl rfl), ?_, ?_, ?_⟩
    · decide
    · decide
    · decide

theorem c10_ack_theorem_witness :
    ∃ r, coordReceiving 2 Spec2Proof.c10coord Spec2Proof.c10msg = .ok r ∧
      r.coord.count = Spec2Proof.c10coord.count - 1 ∧
      alookup r.coord.node_status (srcId Spec2Proof.c10msg) = some "ack" ∧
      (Spec2Proof.c10coord.count - 1 = 0 → r.coord.status = Status.DONE) :=
  c10_ack_theorem.1 2 Spec2Proof.c10coord Spec2Proof.c10msg rfl rfl

theorem coordReceiving_src {K : Nat} {c : CoordSt} {m : Msg} {r : CRes}
    (h : coordReceiving K c m = .ok r) :
    ∀ mm ∈ r.msgs, mm.src = NRef.coord := by
  unfold coordReceiving at h
  dsimp only at h
  repeat' split at h
  all_goals
    first
    | (injection h with h
       subst h
       intro mm hmm
       simp at hmm)
    | injection h
  all_goals try (obtain ⟨i, hi, rfl⟩ := hmm; rfl)

theorem coordAlarm_src {c : CoordSt} {a : Alarm} {r : CRes}
    (h : coordAlarm c a = .ok r) :
    ∀ mm ∈ r.msgs, mm.src = NRef.coord := by
  unfold coordAlarm at h
  dsimp only at h
  repeat' split at h
  all_goals
    first
    | (injection h with h
       subst h
       intro mm hmm
       simp at hmm)
    | injection h
  all_goals try (obtain ⟨x, y, hi, rfl⟩ := hmm; rfl)

theorem spontaneously_src (K : Nat) (c : CoordSt) :
    ∀ mm ∈ (spontaneously K c).msgs, mm.src = NRef.coord := by
  intro mm hmm
  simp [spontaneously] at hmm
  obtain ⟨i, hi, rfl⟩ := hmm
  rfl

theorem twopc_partReceiving_sends {self : NRef} {st : Status} {m : Msg}
    {st2 : Status} {out : List Msg}
    (h : partReceiving self st m = .ok (st2, out)) :
    ∀ mm ∈ out, mm.src = self ∧ (mm.header = "Prepared" ∨ mm.header = "Ack") := by
  unfold partReceiving at h
  repeat' split at h
  all_goals
    first
    | (injection h with h
       injection h with h1 h2
       subst h1
       subst h2
       intro mm hmm
       simp at hmm)
    | injection h
  all_goals try (rw [hmm]; simp)

/-- In every reachable 2PC run, participants only ever send `Prepared` or
`Ack` messages. -/
theorem twopc_part_headers {K : Nat} {s : GState} (h : Reach K s) :
    ∀ m ∈ s.log, ∀ i, m.src = NRef.part i →
      m.header = "Prepared" ∨ m.header = "Ack" := by
  induction h with
  | init => intro m hm; simp [initState] at hm
  | @tail s s2 hr hstep ih =>
    cases hstep with
    | spont hc =>
      intro m hm i hsrc
      simp only [List.mem_append] at hm
      rcases hm with hm | hm
      · exact ih m hm i hsrc
      · have := spontaneously_src K s.coord m hm
        rw [this] at hsrc
        exact absurd hsrc (by simp)
    | deliverCoord idx m0 r h1 h2 h3 =>
      intro m hm i hsrc
      simp only [List.mem_append] at hm
      rcases hm with hm | hm
      · exact ih m hm i hsrc
      · have := coordReceiving_src h3 m hm
        rw [this] at hsrc
        exact absurd hsrc (by simp)
    | deliverPart idx m0 i0 pst st2 out h1 h2 h3 h4 =>
      intro m hm i hsrc
      simp only [List.mem_append] at hm
      rcases hm with hm | hm
      · exact ih m hm i hsrc
      · exact (twopc_partReceiving_sends h4 m hm).2
    | drop idx m0 h1 =>
      intro m hm i hsrc
      exact ih m hm i hsrc
    | fire idx a r h1 h2 =>
      intro m hm i hsrc
      simp only [List.mem_append] at hm
      rcases hm with hm | hm
      · exact ih m hm i hsrc
      · have := coordAlarm_src h2 m hm
        rw [this] at hsrc
        exact absurd hsrc (by simp)

end TwoPC
end Spec2Proof

namespace Spec2Proof

/-- C2: in every reachable 2PC or 3PC run whose coordinator has reached `DONE`,
if a `Commit` was broadcast then no participant ever sent `Aborted` (so none
reached DONE by aborting), and if the run took the abort path then no
participant ever sent `Done` (so none reached DONE by replying `Done` to a
`Commit`).  In 2PC participants answer both decisions with `Ack`, so they never
send `Aborted` or `Done` at all. -/
theorem c2_commit_abort_exclusive :
    (∀ (K : Nat) (s : TwoPC.GState), TwoPC.Reach K s →
      s.coord.status = TwoPC.Status.DONE →
      ((∃ m ∈ s.log, m.header = "Commit") →
          ¬ ∃ m ∈ s.log, (∃ i, m.src = TwoPC.NRef.part i) ∧ m.header = "Aborted") ∧
      ((∃ m ∈ s.log, m.header = "Abort") →
          ¬ ∃ m ∈ s.log, (∃ i, m.src = TwoPC.NRef.part i) ∧ m.header = "Done")) ∧
    (∀ (K : Nat) (s : ThreePC.GState), ThreePC.Reach K s →
      s.coord.status = ThreePC.Status.DONE →
      (ThreePC.SentHdr s.log "Commit" → ¬ ThreePC.SentPartHdr s.log "Aborted") ∧
      (ThreePC.SentHdr s.log "Abort" → ¬ ThreePC.SentPartHdr s.log "Done")) := by
  constructor
  · intro K s hreach _
    constructor
    · rintro _ ⟨m, hm, ⟨i, hsrc⟩, hh⟩
      rcases TwoPC.twopc_part_headers hreach m hm i hsrc with hp | hp <;>
        rw [hh] at hp <;> exact absurd hp (by decide)
    · rintro _ ⟨m, hm, ⟨i, hsrc⟩, hh⟩
      rcases TwoPC.twopc_part_headers hreach m hm i hsrc with hp | hp <;>
        rw [hh] at hp <;> exact absurd hp (by decide)
  · intro K s hreach _
    obtain ⟨_, ih2, ih3, _, _, _, ih7⟩ := ThreePC.threepc_safety hreach
    constructor
    · intro hC hPA
      exact ih7 ⟨hC, ih3 hPA⟩
    · intro hA hPD
      exact ih7 ⟨ih2 hPD, hA⟩

theorem c2_commit_abort_exclusive_witness :
    (∃ s, TwoPC.Reach 1 s ∧ s.coord.status = TwoPC.Status.DONE ∧
      ¬ ∃ m ∈ s.log, (∃ i, m.src = TwoPC.NRef.part i) ∧ m.header = "Aborted") ∧
    (∃ s, ThreePC.Reach 1 s ∧ s.coord.status = ThreePC.Status.DONE ∧
      ¬ ThreePC.SentPartHdr s.log "Aborted") := by
  constructor
  · refine ⟨_, TwoPC.Reach.tail (TwoPC.Reach.tail (TwoPC.Reach.tail (TwoPC.Reach.tail
      (TwoPC.Reach.tail TwoPC.Reach.init
      (TwoPC.Step.spont _ rfl))
      (TwoPC.Step.deliverPart _ 0 _ 0 _ _ _ rfl rfl rfl rfl))
      (TwoPC.Step.deliverCoord _ 0 _ _ rfl rfl rfl))
      (TwoPC.Step.deliverPart _ 0 _ 0 _ _ _ rfl rfl rfl rfl))
      (TwoPC.Step.deliverCoord _ 0 _ _ rfl rfl rfl), ?hd, ?_⟩
    case hd => decide
    refine (c2_commit_abort_exclusive.1 1 _ ?R (by decide)).1 ?hc
    case R =>
      exact TwoPC.Reach.tail (TwoPC.Reach.tail (TwoPC.Reach.tail (TwoPC.Reach.tail
        (TwoPC.Reach.tail TwoPC.Reach.init
        (TwoPC.Step.spont _ rfl))
        (TwoPC.Step.deliverPart _ 0 _ 0 _ _ _ rfl rfl rfl rfl))
        (TwoPC.Step.deliverCoord _ 0 _ _ rfl rfl rfl))
        (TwoPC.Step.deliverPart _ 0 _ 0 _ _ _ rfl rfl rfl rfl))
        (TwoPC.Step.deliverCoord _ 0 _ _ rfl rfl rfl)
    case hc =>
      exact ⟨{ src := TwoPC.NRef.coord, dst := TwoPC.NRef.part 0,
               header := "Commit", decision := 0 }, by decide, rfl⟩
  · refine ⟨_, ThreePC.Reach.tail (ThreePC.Reach.tail (ThreePC.Reach.tail (ThreePC.Reach.tail
      (ThreePC.Reach.tail (ThreePC.Reach.tail (ThreePC.Reach.tail ThreePC.Reach.init
      (ThreePC.Step.spont _ rfl))
      (ThreePC.Step.deliverPart _ 0 _ 0 _ _ _ rfl rfl rfl rfl))
      (ThreePC.Step.deliverCoord _ 0 _ _ rfl rfl rfl))
      (ThreePC.Step.deliverPart _ 0 _ 0 _ _ _ rfl rfl rfl rfl))
      (ThreePC.Step.deliverCoord _ 0 _ _ rfl rfl rfl))
      (ThreePC.Step.deliverPart _ 0 _ 0 _ _ _ rfl rfl rfl rfl))
      (ThreePC.Step.deliverCoord _ 0 _ _ rfl rfl rfl), ?hd3, ?_⟩
    case hd3 => decide
    refine (c2_commit_abort_exclusive.2 1 _ ?R3 (by decide)).1 ?hc3
    case R3 =>
      exact ThreePC.Reach.tail (ThreePC.Reach.tail (ThreePC.Reach.tail (ThreePC.Reach.tail
        (ThreePC.Reach.tail (ThreePC.Reach.tail (ThreePC.Reach.tail ThreePC.Reach.init
        (ThreePC.Step.spont _ rfl))
        (ThreePC.Step.deliverPart _ 0 _ 0 _ _ _ rfl rfl rfl rfl))
        (ThreePC.Step.deliverCoord _ 0 _ _ rfl rfl rfl))
        (ThreePC.Step.deliverPart _ 0 _ 0 _ _ _ rfl rfl rfl rfl))
        (ThreePC.Step.deliverCoord _ 0 _ _ rfl rfl rfl))
        (ThreePC.Step.deliverPart _ 0 _ 0 _ _ _ rfl rfl rfl rfl))
        (ThreePC.Step.deliverCoord _ 0 _ _ rfl rfl rfl)
    case hc3 =>
      exact ⟨{ src := ThreePC.NRef.coord, dst := ThreePC.NRef.part 0,
               header := "Commit", decision := 0 }, by decide, rfl⟩

end Spec2Proof
namespace Spec2Proof

/-- C9, counterexample to the claim as stated: a 3PC participant that moved
`WAITING → DONE` by replying `Done` to a `Commit` answers a re-delivered copy
of that same `Commit` with `Ack`, not with the original `Done` reply (the
status does stay `DONE`). -/
theorem c9_counterexample :
    ThreePC.partReceiving (ThreePC.NRef.part 0) ThreePC.Status.WAITING c9Commit3 =
      .ok (ThreePC.Status.DONE,
        [{ src := ThreePC.NRef.part 0, dst := ThreePC.NRef.coord,
           header := "Done", decision := 0 }]) ∧
    ThreePC.partReceiving (ThreePC.NRef.part 0) ThreePC.Status.DONE c9Commit3 =
      .ok (ThreePC.Status.DONE,
        [{ src := ThreePC.NRef.part 0, dst := ThreePC.NRef.coord,
           header := "Ack", decision := 0 }]) ∧
    ¬ ("Ack" = "Done") :=
  ⟨rfl, rfl, by decide⟩

/-- C9 (amended): re-delivering a coordinator decision to a node in `DONE`
leaves the status `DONE` and replies: in 2PC with the same `Ack` the node
originally sent; in 3PC with the same `Aborted` for `Abort` but with `Ack` —
not the original `Done` — for `Commit`; in Byzantine-3PC with the same signed
`Done`/`Aborted` replies the original transitions produced, with no state
change. -/
theorem c9_done_replies (hash : String → String) :
    (∀ (self : TwoPC.NRef) (m : TwoPC.Msg),
      m.header = "Commit" ∨ m.header = "Abort" →
      ∃ out, TwoPC.partReceiving self TwoPC.Status.WAITING m =
          .ok (TwoPC.Status.DONE, out) ∧
        TwoPC.partReceiving self TwoPC.Status.DONE m =
          .ok (TwoPC.Status.DONE, out)) ∧
    (∀ (self : ThreePC.NRef) (m : ThreePC.Msg), m.header = "Abort" →
      ∃ out, ThreePC.partReceiving self ThreePC.Status.WAITING m =
          .ok (ThreePC.Status.DONE, out) ∧
        ThreePC.partReceiving self ThreePC.Status.DONE m =
          .ok (ThreePC.Status.DONE, out)) ∧
    (∀ (self : ThreePC.NRef) (m : ThreePC.Msg), m.header = "Commit" →
      ThreePC.partReceiving self ThreePC.Status.WAITING m =
        .ok (ThreePC.Status.DONE,
          [{ src := self, dst := m.src, header := "Done", decision := 0 }]) ∧
      ThreePC.partReceiving self ThreePC.Status.DONE m =
        .ok (ThreePC.Status.DONE,
          [{ src := self, dst := m.src, header := "Ack", decision := 0 }])) ∧
    (∀ (node : B3PC.Node) (msg : B3PC.InMsg), node.status = B3PC.Status.DONE →
      (B3PC.receiving hash node msg).node = node ∧
      (msg.header = "Commit" → (B3PC.receiving hash node msg).msgs =
        [{ header := "Done", id := node.uniqueValue, decision := none,
           signature := B3PC.sign_message hash node
             ("done:" ++ toString node.uniqueValue),
           dest := B3PC.Dest.src }]) ∧
      (msg.header = "Abort" → (B3PC.receiving hash node msg).msgs =
        [{ header := "Aborted", id := node.uniqueValue, decision := none,
           signature := B3PC.sign_message hash node
             ("aborted:" ++ toString node.uniqueValue),
           dest := B3PC.Dest.src }])) ∧
    (∀ (node : B3PC.Node) (msg : B3PC.InMsg),
      node.status = B3PC.Status.WAITING_COMMIT →
      B3PC.verify_signature hash ("commit:" ++ toString msg.id) msg.signature msg.id
          = true →
      msg.header = "Commit" →
      (B3PC.receiving hash node msg).node.status = B3PC.Status.DONE ∧
      (B3PC.receiving hash node msg).msgs =
        [{ header := "Done", id := node.uniqueValue, decision := none,
           signature := B3PC.sign_message hash node
             ("done:" ++ toString node.uniqueValue),
           dest := B3PC.Dest.src }]) := by
  refine ⟨?_, ?_, ?_, ?_, ?_⟩
  · rintro self m (hh | hh) <;>
      exact ⟨[{ src := self, dst := m.src, header := "Ack", decision := 0 }],
        by simp [TwoPC.partReceiving, hh], by simp [TwoPC.partReceiving, hh]⟩
  · intro self m hh
    have hh2 : m.header ≠ "Commit" := by rw [hh]; decide
    exact ⟨[{ src := self, dst := m.src, header := "Aborted", decision := 0 }],
      by simp [ThreePC.partReceiving, hh, hh2],
      by simp [ThreePC.partReceiving, hh, hh2]⟩
  · intro self m hh
    exact ⟨by simp [ThreePC.partReceiving, hh], by simp [ThreePC.partReceiving, hh]⟩
  · intro node msg hst
    refine ⟨?_, ?_, ?_⟩
    · simp only [B3PC.receiving, hst, B3PC.doneDefault]
      by_cases h1 : msg.header = "Commit"
      · simp [h1]
      · by_cases h2 : msg.header = "Abort" <;> simp [h1, h2, B3PC.skip]
    · intro hh
      simp [B3PC.receiving, hst, B3PC.doneDefault, hh]
    · intro hh
      have hh2 : msg.header ≠ "Commit" := by rw [hh]; decide
      simp [B3PC.receiving, hst, B3PC.doneDefault, hh, hh2]
  · intro node msg hst hv hh
    constructor <;>
      simp [B3PC.receiving, hst, B3PC.wcReceiving, hh, hv]

theorem c9_done_replies_witness :
    ∃ out, TwoPC.partReceiving (TwoPC.NRef.part 0) TwoPC.Status.WAITING c9Commit2 =
        .ok (TwoPC.Status.DONE, out) ∧
      TwoPC.partReceiving (TwoPC.NRef.part 0) TwoPC.Status.DONE c9Commit2 =
        .ok (TwoPC.Status.DONE, out) :=
  (c9_done_replies B3PC.hashId).1 (TwoPC.NRef.part 0) c9Commit2 (Or.inl rfl)

end Spec2Proof
namespace Spec2Proof
namespace Byz

theorem received_zero_err (node : Node) (msg : InMsg) (e : String)
    (h : checkAndFold
        (storeDecision node msg.data.path msg.data.id msg.data.decision msg.data.n).1
        msg.data.path
        (storeDecision node msg.data.path msg.data.id msg.data.decision msg.data.n).2
        = .error e) :
    received_zero node msg = .error e := by
  unfold received_zero
  rcases hq : storeDecision node msg.data.path msg.data.id msg.data.decision
      msg.data.n with ⟨n2, ent⟩
  rw [hq] at h
  dsimp only
  rw [hq]
  rw [h]

theorem c1_crash_eval :
    receiving 1 c1K1Pre c1M9 = .error "KeyError: saved_decisions[path]" := by
  have h2 : checkAndFold c1NX [100, 101, 102] { decisions := c1DX, total := 7 } =
      .error "KeyError: saved_decisions[path]" := by
    rw [show checkAndFold c1NX [100, 101, 102] { decisions := c1DX, total := 7 } =
          process_final_decision c1NX [100, 101, 102] c1DX from rfl,
        process_final_decision.eq_def]
    rfl
  exact received_zero_err c1K1Learn c1M9 _ h2

/-- C1: the claimed Oral-Messages guarantee FAILS for this implementation.
With `n = 10 ≥ 3·3 + 1` nodes, `m = 3` traitors and an honest commander
ordering `1`, the simulation has a reachable terminal configuration in which
the honest lieutenant at slot 1 has not ended in `ATTACK` or `RETREAT`: it is
frozen in `LIEUTIENANT` by an uncaught `KeyError`.  The runtime guarantees no
FIFO order, so the `m = 1` relays for path `[100, 101, 102]` can reach the
seven nodes outside the path before those nodes learn slot 1's unique value;
each then includes slot 1 in its `m = 0` destination list (an unlearned
neighbour id is never `in` the path), slot 1 accumulates seven votes for a
path containing itself, `has_all_decisions` fires, and the fold looks up the
parent key `[100, 101]`, which slot 1 never stored. -/
theorem c1_om_guarantee_fails :
    3 * 3 + 1 ≤ 10 ∧
    ∃ s, GReach 1 3 10 c1Init s ∧ Terminal 1 3 10 s ∧
      ∃ nd, s.nodes.get? 1 = some nd ∧ nd.status = Status.LIEUTIENANT ∧
        ¬ nd.status = Status.ATTACK ∧ ¬ nd.status = Status.RETREAT := by
  refine ⟨by decide, _,
    GReach.tail (GReach.tail (GReach.tail (GReach.tail (GReach.tail
      (GReach.tail (GReach.tail (GReach.tail (GReach.tail (GReach.tail
      (GReach.tail (GReach.tail (GReach.tail (GReach.tail (GReach.tail
      (GReach.tail (GReach.tail GReach.init
      (GStep.spont _ _ rfl rfl rfl))
      (GStep.deliver _ 0 1 _ _ _ _ rfl rfl rfl (Or.inr rfl) rfl))
      (GStep.deliver _ 8 2 _ _ _ _ rfl rfl rfl (Or.inr rfl) rfl))
      (GStep.deliver _ 16 3 _ _ _ _ rfl rfl rfl (Or.inr rfl) rfl))
      (GStep.deliver _ 16 4 _ _ _ _ rfl rfl rfl (Or.inr rfl) rfl))
      (GStep.deliver _ 16 5 _ _ _ _ rfl rfl rfl (Or.inr rfl) rfl))
      (GStep.deliver _ 16 6 _ _ _ _ rfl rfl rfl (Or.inr rfl) rfl))
      (GStep.deliver _ 16 7 _ _ _ _ rfl rfl rfl (Or.inl rfl) rfl))
      (GStep.deliver _ 16 8 _ _ _ _ rfl rfl rfl (Or.inl rfl) rfl))
      (GStep.deliver _ 16 9 _ _ _ _ rfl rfl rfl (Or.inl rfl) rfl))
      (GStep.deliver _ 17 1 _ _ _ _ rfl rfl rfl (Or.inr rfl) rfl))
      (GStep.deliver _ 24 1 _ _ _ _ rfl rfl rfl (Or.inr rfl) rfl))
      (GStep.deliver _ 31 1 _ _ _ _ rfl rfl rfl (Or.inr rfl) rfl))
      (GStep.deliver _ 38 1 _ _ _ _ rfl rfl rfl (Or.inr rfl) rfl))
      (GStep.deliver _ 45 1 _ _ _ _ rfl rfl rfl (Or.inr rfl) rfl))
      (GStep.deliver _ 52 1 _ _ _ _ rfl rfl rfl (Or.inr rfl) rfl))
      (GStep.crash _ 59 1 c1M9 c1K1Pre "KeyError: saved_decisions[path]"
        rfl rfl rfl (Or.inr rfl) c1_crash_eval), ?_, ?_⟩
  · intro s2 h
    cases h with
    | spont nd h1 h2 h3 => exact absurd h1 (by decide)
    | deliver idx d msg nd nd2 out h1 h2 h3 h4 h5 => exact absurd h1 (by decide)
    | ignore idx d msg nd h1 h2 h3 h4 => exact absurd h1 (by decide)
    | crash idx d msg nd e h1 h2 h3 h4 h5 => exact absurd h1 (by decide)
  · exact ⟨c1K1Pre, rfl, rfl, by decide, by decide⟩

end Byz
end Spec2Proof
